import Mathlib

set_option maxRecDepth 100000

/-!
Shallow embedding of the Corona code-enforcement case sync service.

The embedding follows the TypeScript sources:
* the CSV record module (record shape, `isValidCaseNo`, `generateCaseHash`,
  `normalizeDate`, `buildAddress`, the row-filtering loop of
  `parseCodeEnforcementCasesCsv`);
* the state tracker (`determineCaseStatus`, `diffCases`, `upsertCaseState`,
  `updateCaseThreefoldId`, `createSyncLog`, `completeSyncLog`);
* the Threefold client (`findTicketByCaseNumber` with the process-wide
  search-available flag and the 405 capability signal);
* the sync orchestrator (`processCasesSync`), with the remote store modelled
  as an oracle environment and remote calls collected in a trace.

JavaScript `string | null` values are modelled as `Option String`; JS
truthiness on such values is `jsTruthy`.  The Postgres `case_state` table is
an association list keyed by `case_no`; `UPDATE ... WHERE` and
`INSERT ... ON CONFLICT` are modelled row by row.  Possible database-query
failures (which the orchestrator turns into the fatal path) are injected
through the environment.
-/

/-- JS truthiness of a `string | null` value: `null` and `""` are falsy. -/
def jsTruthy : Option String → Bool
  | none => false
  | some s => s ≠ ""

/-- The `x || null` normalization used in the sync diff: empty string becomes null. -/
def jsOrNull : Option String → Option String
  | none => none
  | some s => if s = "" then none else some s

/-- JS truthiness of a `number | null` value: `null` and `0` are falsy. -/
def jsTruthyNum : Option Int → Bool
  | none => false
  | some n => n ≠ 0

/-! ### SHA-256 (the fixed hashing scheme behind `generateCaseHash`)

The source hashes with node's `crypto.createHash('sha256')`; we embed the
FIPS 180-4 SHA-256 function over `Nat` with explicit reduction mod `2^32`.
-/

/-- UTF-8 encoding of one code point as bytes. -/
def encodeCodepoint (n : Nat) : List Nat :=
  if n < 128 then [n]
  else if n < 2048 then [192 ||| (n >>> 6), 128 ||| (n &&& 63)]
  else if n < 65536 then
    [224 ||| (n >>> 12), 128 ||| ((n >>> 6) &&& 63), 128 ||| (n &&& 63)]
  else
    [240 ||| (n >>> 18), 128 ||| ((n >>> 12) &&& 63),
     128 ||| ((n >>> 6) &&& 63), 128 ||| (n &&& 63)]

/-- UTF-8 bytes of a string. -/
def utf8Bytes (s : String) : List Nat :=
  s.data.foldr (fun ch acc => encodeCodepoint ch.toNat ++ acc) []

/-- Word size modulus for SHA-256. -/
def mod32 : Nat := 4294967296

/-- Right rotation of a 32-bit word. -/
def rotr32 (x n : Nat) : Nat := ((x >>> n) ||| (x <<< (32 - n))) % mod32

/-- Integer cube root (used to derive the round constants from primes). -/
def icbrt (n : Nat) : Nat :=
  (List.range 64).reverse.foldl
    (fun r b => let c := r + (1 <<< b); if c * c * c ≤ n then c else r) 0

/-- Integer square root (used to derive the initial hash values from primes). -/
def isqrt (n : Nat) : Nat :=
  (List.range 64).reverse.foldl
    (fun r b => let c := r + (1 <<< b); if c * c ≤ n then c else r) 0

/-- The first 64 primes, sources of the SHA-256 constants. -/
def sha256Primes : List Nat :=
  [2, 3, 5, 7, 11, 13, 17, 19, 23, 29, 31, 37, 41, 43, 47, 53,
   59, 61, 67, 71, 73, 79, 83, 89, 97, 101, 103, 107, 109, 113, 127, 131,
   137, 139, 149, 151, 157, 163, 167, 173, 179, 181, 191, 193, 197, 199, 211, 223,
   227, 229, 233, 239, 241, 251, 257, 263, 269, 271, 277, 281, 283, 293, 307, 311]

/-- SHA-256 round constants: fractional parts of the cube roots of the first 64 primes. -/
def sha256K : Array Nat :=
  (sha256Primes.map (fun p => icbrt (p <<< 96) % mod32)).toArray

/-- SHA-256 initial hash values: fractional parts of the square roots of the first 8 primes. -/
def sha256H0 : List Nat :=
  (sha256Primes.take 8).map (fun p => isqrt (p <<< 64) % mod32)

/-- Big-endian 8-byte encoding of a length in bits. -/
def be64 (n : Nat) : List Nat :=
  (List.range 8).map (fun i => (n >>> (8 * (7 - i))) &&& 255)

/-- SHA-256 message padding to a multiple of 64 bytes. -/
def sha256pad (msg : List Nat) : List Nat :=
  let L := msg.length
  let padLen := (119 - (L % 64)) % 64
  msg ++ [128] ++ List.replicate padLen 0 ++ be64 (8 * L)

/-- Group bytes into big-endian 32-bit words. -/
def bytesToWords : List Nat → List Nat
  | b0 :: b1 :: b2 :: b3 :: rest =>
    ((((b0 <<< 8) ||| b1) <<< 8 ||| b2) <<< 8 ||| b3) :: bytesToWords rest
  | _ => []

/-- Message-schedule sigma-0. -/
def ssig0 (x : Nat) : Nat := rotr32 x 7 ^^^ rotr32 x 18 ^^^ (x >>> 3)

/-- Message-schedule sigma-1. -/
def ssig1 (x : Nat) : Nat := rotr32 x 17 ^^^ rotr32 x 19 ^^^ (x >>> 10)

/-- Compression Sigma-0. -/
def bsig0 (x : Nat) : Nat := rotr32 x 2 ^^^ rotr32 x 13 ^^^ rotr32 x 22

/-- Compression Sigma-1. -/
def bsig1 (x : Nat) : Nat := rotr32 x 6 ^^^ rotr32 x 11 ^^^ rotr32 x 25

/-- SHA-256 choice function (complement taken inside 32 bits). -/
def chWord (x y z : Nat) : Nat := (x &&& y) ^^^ ((x ^^^ 4294967295) &&& z)

/-- SHA-256 majority function. -/
def majWord (x y z : Nat) : Nat := (x &&& y) ^^^ (x &&& z) ^^^ (y &&& z)

/-- Extend the 16 chunk words to the 64-entry message schedule. -/
def extendSchedule (w : Array Nat) : Array Nat :=
  (List.range 48).foldl
    (fun w i =>
      let j := i + 16
      w.push ((w.getD (j - 16) 0 + ssig0 (w.getD (j - 15) 0) +
               w.getD (j - 7) 0 + ssig1 (w.getD (j - 2) 0)) % mod32))
    w

/-- One SHA-256 compression step over the running 8-word state. -/
def sha256Round (w : Array Nat)
    (st : Nat × Nat × Nat × Nat × Nat × Nat × Nat × Nat) (i : Nat) :
    Nat × Nat × Nat × Nat × Nat × Nat × Nat × Nat :=
  let (a, b, c, d, e, f, g, h) := st
  let t1 := (h + bsig1 e + chWord e f g + sha256K.getD i 0 + w.getD i 0) % mod32
  let t2 := (bsig0 a + majWord a b c) % mod32
  ((t1 + t2) % mod32, a, b, c, (d + t1) % mod32, e, f, g)

/-- Compress one 64-byte chunk into the running hash state. -/
def compressChunk (hs : List Nat) (chunk : List Nat) : List Nat :=
  let w := extendSchedule (bytesToWords chunk).toArray
  let g := fun i => hs.getD i 0
  let (a, b, c, d, e, f, g7, h7) :=
    (List.range 64).foldl (sha256Round w)
      (g 0, g 1, g 2, g 3, g 4, g 5, g 6, g 7)
  [(hs.getD 0 0 + a) % mod32, (hs.getD 1 0 + b) % mod32,
   (hs.getD 2 0 + c) % mod32, (hs.getD 3 0 + d) % mod32,
   (hs.getD 4 0 + e) % mod32, (hs.getD 5 0 + f) % mod32,
   (hs.getD 6 0 + g7) % mod32, (hs.getD 7 0 + h7) % mod32]

/-- Fuel-driven worker splitting a list into chunks of `max 1 n` elements. -/
def chunksGo (n : Nat) : Nat → List α → List (List α)
  | 0, _ => []
  | _, [] => []
  | fuel + 1, x :: xs =>
    (x :: xs).take (max 1 n) :: chunksGo n fuel ((x :: xs).drop (max 1 n))

/-- Split a list into chunks of `max 1 n` elements (the slicing loop of a batched write). -/
def chunksPos (n : Nat) (l : List α) : List (List α) := chunksGo n l.length l

/-- SHA-256 digest of a byte sequence, as eight 32-bit words. -/
def sha256Words (msg : List Nat) : List Nat :=
  (chunksPos 64 (sha256pad msg)).foldl compressChunk sha256H0

/-- Lowercase hexadecimal digit. -/
def hexDigitChar (n : Nat) : Char :=
  if n < 10 then Char.ofNat (48 + n) else Char.ofNat (87 + n)

/-- Lowercase 8-digit hex rendering of a 32-bit word. -/
def word32ToHex (n : Nat) : String :=
  ((List.range 8).map (fun i => hexDigitChar ((n >>> (4 * (7 - i))) &&& 15))).asString

/-- Lowercase hex SHA-256 digest of a string (node `createHash('sha256').digest('hex')`). -/
def sha256hex (s : String) : String :=
  String.join ((sha256Words (utf8Bytes s)).map word32ToHex)

/-- Standard test vector validating the SHA-256 embedding. -/
theorem sha256hex_abc :
    sha256hex "abc" =
      "ba7816bf8f01cfea414140de5dae2223b00361a396177a9cb410ff61f20015ad" := by
  rfl

/-- Empty-string test vector validating padding of the SHA-256 embedding. -/
theorem sha256hex_empty :
    sha256hex "" =
      "e3b0c44298fc1c149afbf4c8996fb92427ae41e4649b934ca495991b7852b855" := by
  rfl

/-! ### Record model (`src/parsers/code-enforcement-cases.ts`) -/

/-- Parsed Code Enforcement Case record from CSV. -/
structure CodeEnforcementCaseRecord where
  caseNo : String
  caseOpened : Option String
  caseClosed : Option String
  caseType : String
  caseSubType : String
  siteAddress : String
  rawData : List (String × String)
deriving Repr, DecidableEq

/-- Generate a content hash for change detection; includes caseNo, caseOpened, caseClosed. -/
def generateCaseHash (record : CodeEnforcementCaseRecord) : String :=
  let content := String.intercalate "|"
    [record.caseNo, record.caseOpened.getD "", record.caseClosed.getD ""]
  (sha256hex content).take 16

/-- Validate case number format, the regex `^C[A-Z]\d{2}-\d+$`. -/
def isValidCaseNo (caseNo : String) : Bool :=
  match caseNo.data with
  | a :: b :: c :: d :: e :: rest =>
    (a == 'C') && b.isUpper && c.isDigit && d.isDigit && (e == '-') &&
      !rest.isEmpty && rest.all Char.isDigit
  | _ => false

/-- Characters of a string with leading and trailing whitespace removed. -/
def trimChars (l : List Char) : List Char :=
  ((l.dropWhile Char.isWhitespace).reverse.dropWhile Char.isWhitespace).reverse

/-- JS `String.prototype.trim`. -/
def jsTrim (s : String) : String := (trimChars s.data).asString

/-- Split a character list on a separator character (`String.split`). -/
def splitOnChar (c : Char) : List Char → List (List Char)
  | [] => [[]]
  | x :: xs =>
    if x = c then [] :: splitOnChar c xs
    else
      match splitOnChar c xs with
      | [] => [[x]]
      | seg :: rest => (x :: seg) :: rest

/-- Left-pad a digit group with zeros to two characters (`padStart(2, '0')`). -/
def pad2 (l : List Char) : List Char := List.replicate (2 - l.length) '0' ++ l

/-- Normalize a TrakIT date (`M/D/YYYY`, optional time suffix) to `YYYY-MM-DD`. -/
def normalizeDate (dateStr : Option String) : Option String :=
  match dateStr with
  | none => none
  | some s =>
    if jsTrim s = "" then none
    else
      match splitOnChar '/' (s.data.takeWhile (fun ch => ch ≠ ' ')) with
      | [m, d, y] =>
        if (1 ≤ m.length && m.length ≤ 2 && m.all Char.isDigit &&
            1 ≤ d.length && d.length ≤ 2 && d.all Char.isDigit &&
            y.length == 4 && y.all Char.isDigit : Bool) then
          some ((y ++ ['-'] ++ pad2 m ++ ['-'] ++ pad2 d).asString)
        else none
      | _ => none

/-- One already-parsed CSV row: column name to cell value. -/
abbrev CsvRow := List (String × String)

/-- Look up a column of a row (JS property access on the parsed row object). -/
def lookupField : CsvRow → String → Option String
  | [], _ => none
  | kv :: t, key => if kv.1 = key then some kv.2 else lookupField t key

/-- Build the full address from SITE_ADDR, SITE_CITY, SITE_STATE, SITE_ZIP. -/
def buildAddress (row : CsvRow) : String :=
  let addr := ((lookupField row "SITE_ADDR").map jsTrim).getD ""
  let city := ((lookupField row "SITE_CITY").map jsTrim).getD ""
  let state := ((lookupField row "SITE_STATE").map jsTrim).getD ""
  let zip := ((lookupField row "SITE_ZIP").map jsTrim).getD ""
  let parts := if addr ≠ "" then [addr] else []
  let cityStateZip :=
    (if city ≠ "" then [city] else []) ++
    (if state ≠ "" then [state] else []) ++
    (if zip ≠ "" && zip ≠ "0" then [zip] else [])
  let parts := parts ++ (if cityStateZip ≠ [] then [String.intercalate ", " cityStateZip] else [])
  String.intercalate ", " parts

/-- The trimmed CASE_NO cell of a row, defaulting to the empty string. -/
def rowCaseNo (row : CsvRow) : String :=
  ((lookupField row "CASE_NO").map jsTrim).getD ""

/-- Build the record for one valid row. -/
def rowToRecord (row : CsvRow) : CodeEnforcementCaseRecord :=
  { caseNo := rowCaseNo row
    caseOpened := normalizeDate (lookupField row "STARTED")
    caseClosed := normalizeDate (lookupField row "CLOSED")
    caseType := ((lookupField row "CaseType").map jsTrim).getD ""
    caseSubType := ((lookupField row "CaseSubType").map jsTrim).getD ""
    siteAddress := buildAddress row
    rawData := row }

/-- The row-filtering loop of `parseCodeEnforcementCasesCsv`: valid rows become
records in order, rows with an invalid case number are skipped and counted. -/
def parseRows (rows : List CsvRow) : List CodeEnforcementCaseRecord × Nat :=
  rows.foldl
    (fun acc row =>
      if !isValidCaseNo (rowCaseNo row) then (acc.1, acc.2 + 1)
      else (acc.1 ++ [rowToRecord row], acc.2))
    ([], 0)

/-! ### State tracker (`src/state/tracker.ts`) -/

/-- Determine case status from opened/closed dates: closed when both are
(JS-truthy) present, open otherwise. -/
def determineCaseStatus (caseOpened caseClosed : Option String) : String :=
  if jsTruthy caseOpened && jsTruthy caseClosed then "closed" else "open"

/-- One row of the `case_state` table. -/
structure CaseRow where
  case_opened : Option String
  case_closed : Option String
  case_status : String
  case_type : String
  case_subtype : String
  site_address : String
  raw_data : List (String × String)
  content_hash : String
  threefold_ticket_id : Option Int
  last_seen_at : Nat
  created_at : Nat
deriving Repr, DecidableEq

/-- The `case_state` table: rows keyed by `case_no` (the primary key). -/
abbrev CaseDb := List (String × CaseRow)

/-- Fetch the row for a case number. -/
def dbFind : CaseDb → String → Option CaseRow
  | [], _ => none
  | kv :: t, caseNo => if kv.1 = caseNo then some kv.2 else dbFind t caseNo

/-- First record of a list carrying the given case number (key membership probe). -/
def recFind (caseNo : String) :
    List CodeEnforcementCaseRecord → Option CodeEnforcementCaseRecord
  | [] => none
  | r :: t => if r.caseNo = caseNo then some r else recFind caseNo t

/-- One `Map.set` step of deduplication: replace the existing entry for the key
in place, or append a new entry. -/
def insertLastWins (acc : List CodeEnforcementCaseRecord)
    (record : CodeEnforcementCaseRecord) : List CodeEnforcementCaseRecord :=
  if (recFind record.caseNo acc).isSome then
    acc.map (fun r => if r.caseNo = record.caseNo then record else r)
  else
    acc ++ [record]

/-- Deduplicate by case_no, last occurrence wins (the JS `Map` build plus
`Array.from(map.values())`). -/
def dedupeByCaseNo (records : List CodeEnforcementCaseRecord) :
    List CodeEnforcementCaseRecord :=
  records.foldl insertLastWins []

/-- The last record of the list carrying the given case number. -/
def lastOccurrence (caseNo : String) :
    List CodeEnforcementCaseRecord → Option CodeEnforcementCaseRecord
  | [] => none
  | r :: t =>
    match lastOccurrence caseNo t with
    | some r' => some r'
    | none => if r.caseNo = caseNo then some r else none

/-- A change emitted by `diffCases`. -/
structure CaseStateChange where
  caseNo : String
  record : CodeEnforcementCaseRecord
  previousHash : Option String
  newHash : String
  isNew : Bool
  previousOpened : Option String
  previousClosed : Option String
  previousStatus : Option String
  threefoldTicketId : Option Int
deriving Repr, DecidableEq

/-- Compare code enforcement cases against stored state and return changes:
new cases and cases whose content hash differs from the stored hash. -/
def diffCases (db : CaseDb) (records : List CodeEnforcementCaseRecord) :
    List CaseStateChange :=
  (dedupeByCaseNo records).filterMap fun record =>
    let newHash := generateCaseHash record
    match dbFind db record.caseNo with
    | none =>
      some { caseNo := record.caseNo, record := record, previousHash := none,
             newHash := newHash, isNew := true, previousOpened := none,
             previousClosed := none, previousStatus := none, threefoldTicketId := none }
    | some row =>
      if row.content_hash ≠ newHash then
        some { caseNo := record.caseNo, record := record,
               previousHash := some row.content_hash, newHash := newHash,
               isNew := false, previousOpened := row.case_opened,
               previousClosed := row.case_closed,
               previousStatus := some row.case_status,
               threefoldTicketId := row.threefold_ticket_id }
      else none

/-- The row inserted for a case not yet present (`threefold_ticket_id` defaults to null). -/
def mkNewRow (now : Nat) (record : CodeEnforcementCaseRecord) : CaseRow :=
  { case_opened := record.caseOpened
    case_closed := record.caseClosed
    case_status := determineCaseStatus record.caseOpened record.caseClosed
    case_type := record.caseType
    case_subtype := record.caseSubType
    site_address := record.siteAddress
    raw_data := record.rawData
    content_hash := generateCaseHash record
    threefold_ticket_id := none
    last_seen_at := now
    created_at := now }

/-- The `ON CONFLICT ... DO UPDATE SET` column list: overwrites the record
columns and `last_seen_at`, keeps `threefold_ticket_id` and `created_at`. -/
def applyUpdate (now : Nat) (record : CodeEnforcementCaseRecord) (old : CaseRow) : CaseRow :=
  { old with
    case_opened := record.caseOpened
    case_closed := record.caseClosed
    case_status := determineCaseStatus record.caseOpened record.caseClosed
    case_type := record.caseType
    case_subtype := record.caseSubType
    site_address := record.siteAddress
    raw_data := record.rawData
    content_hash := generateCaseHash record
    last_seen_at := now }

/-- Upsert of a single record into the table. -/
def upsertRow (now : Nat) (db : CaseDb) (record : CodeEnforcementCaseRecord) : CaseDb :=
  match dbFind db record.caseNo with
  | some _ =>
    db.map (fun kv => if kv.1 = record.caseNo then (kv.1, applyUpdate now record kv.2) else kv)
  | none => db ++ [(record.caseNo, mkNewRow now record)]

/-- Update stored case state: dedupe (last wins) and write in batches of 1000. -/
def upsertCaseState (now : Nat) (db : CaseDb)
    (records : List CodeEnforcementCaseRecord) : CaseDb :=
  if records.isEmpty then db
  else
    (chunksPos 1000 (dedupeByCaseNo records)).foldl
      (fun d chunk => chunk.foldl (upsertRow now) d) db

/-- Update the Threefold ticket id cache column for a case
(`UPDATE case_state SET threefold_ticket_id = $2 WHERE case_no = $1`;
touches nothing when no row matches). -/
def updateCaseThreefoldId (db : CaseDb) (caseNo : String) (ticketId : Int) : CaseDb :=
  db.map (fun kv =>
    if kv.1 = caseNo then (kv.1, { kv.2 with threefold_ticket_id := some ticketId }) else kv)

/-- One row of the `sync_log` table. -/
structure SyncLogEntry where
  sync_type : String
  completed : Bool
  total_records : Nat
  changed_records : Nat
  errors : Nat
  error_message : Option String
deriving Repr, DecidableEq

/-- Insert a fresh sync_log row; its id is its index. -/
def createSyncLog (log : List SyncLogEntry) (syncType : String) : List SyncLogEntry :=
  log ++ [{ sync_type := syncType, completed := false, total_records := 0,
            changed_records := 0, errors := 0, error_message := none }]

/-- Apply a function to the element at an index, leaving the rest unchanged. -/
def modifyAt (f : α → α) : Nat → List α → List α
  | _, [] => []
  | 0, x :: xs => f x :: xs
  | n + 1, x :: xs => x :: modifyAt f n xs

/-- Finalize a sync_log row with totals and an optional error message. -/
def completeSyncLog (log : List SyncLogEntry) (id total changed errs : Nat)
    (errorMessage : Option String) : List SyncLogEntry :=
  modifyAt
    (fun e =>
      { e with
        completed := true
        total_records := total
        changed_records := changed
        errors := errs
        error_message := errorMessage })
    id log

/-! ### Threefold client (`src/sync/threefold.ts`) -/

/-- The custom fields of a matched remote ticket that the sync reads. -/
structure TicketWithCustomFields where
  id : Int
  cc_case_opened : Option String
  case_close_date : Option String
  last_case_status : Option String
deriving Repr, DecidableEq

/-- Update payload for ticket custom fields.  A present `case_close_date` may
carry an explicit null (clear the field), hence the nested option. -/
structure CodeComplianceCustomFields where
  cc_case_opened : Option String := none
  case_close_date : Option (Option String) := none
  last_case_status : Option String := none
deriving Repr, DecidableEq

/-- One outbound remote API call. -/
inductive RemoteCall where
  | getById (ticketId : Int)
  | search (caseNo : String)
  | update (ticketId : Int) (payload : CodeComplianceCustomFields)
deriving Repr, DecidableEq

/-- Whether a remote call is a ticket custom-field write. -/
def isUpdateCall : RemoteCall → Bool
  | .update _ _ => true
  | _ => false

/-- Oracle for the behavior of the remote Threefold store: what each call
would return if issued.  Errors carry the thrown message. -/
structure RemoteEnv where
  getById : Int → Except String (Option TicketWithCustomFields)
  search : String → Except String (List TicketWithCustomFields)
  update : Int → Except String Unit

/-- Environment of one sync run: remote oracle, the dry-run switch, and
injected database-query failures (none means the query succeeds). -/
structure SyncEnv where
  remote : RemoteEnv
  caseUpdatesEnabled : Bool
  diffDbError : Option String := none
  upsertDbError : Option String := none

/-- Whether a pattern occurs at the head of a character list. -/
def startsWithPat : List Char → List Char → Bool
  | [], _ => true
  | _ :: _, [] => false
  | p :: ps, x :: xs => (x == p) && startsWithPat ps xs

/-- Whether a pattern occurs anywhere in a character list. -/
def includesPat (pat : List Char) : List Char → Bool
  | [] => pat.isEmpty
  | x :: xs => startsWithPat pat (x :: xs) || includesPat pat xs

/-- Whether an error message contains the substring `405`
(`errorMessage.includes('405')`). -/
def includes405 (msg : String) : Bool := includesPat ['4', '0', '5'] msg.data

/-- Handling of a failed search call: a 405 error clears the flag and yields
null; any other error propagates. -/
def searchErrorFallback (searchApiAvailable : Bool) (caseNo msg : String) :
    Bool × List RemoteCall × Except String (Option TicketWithCustomFields) :=
  if includes405 msg then (false, [.search caseNo], .ok none)
  else (searchApiAvailable, [.search caseNo], .error msg)

/-- Find a ticket by the cc_case_number custom field.  Skips the remote call
entirely when the search flag is down; a 405 error clears the flag and yields
null; other errors propagate.  Returns the new flag, the calls issued, and
the outcome. -/
def findTicketByCaseNumber (env : SyncEnv) (searchApiAvailable : Bool) (caseNo : String) :
    Bool × List RemoteCall × Except String (Option TicketWithCustomFields) :=
  if !searchApiAvailable then (searchApiAvailable, [], .ok none)
  else
    match env.remote.search caseNo with
    | .ok tickets => (searchApiAvailable, [.search caseNo], .ok tickets.head?)
    | .error msg => searchErrorFallback searchApiAvailable caseNo msg

/-! ### Sync orchestrator (`src/sync/cases-sync.ts`) -/

/-- Resolve the remote ticket for a change: use the cached ticket id when
(JS-truthy) present, fall back to search when absent or stale. -/
def resolveTicket (env : SyncEnv) (searchApiAvailable : Bool) (change : CaseStateChange) :
    Bool × List RemoteCall × Except String (Option TicketWithCustomFields) :=
  if jsTruthyNum change.threefoldTicketId then
    match env.remote.getById (change.threefoldTicketId.getD 0) with
    | .error msg =>
      (searchApiAvailable, [.getById (change.threefoldTicketId.getD 0)], .error msg)
    | .ok (some t) =>
      (searchApiAvailable, [.getById (change.threefoldTicketId.getD 0)], .ok (some t))
    | .ok none =>
      ((findTicketByCaseNumber env searchApiAvailable change.caseNo).1,
       .getById (change.threefoldTicketId.getD 0) ::
         (findTicketByCaseNumber env searchApiAvailable change.caseNo).2.1,
       (findTicketByCaseNumber env searchApiAvailable change.caseNo).2.2)
  else
    findTicketByCaseNumber env searchApiAvailable change.caseNo

/-- The field diff of the sync loop: null-normalize the ticket fields and the
desired values, and build a payload holding only the changed fields (an empty
desired opened date is never written; a changed closed date is written even
when null).  Returns none when nothing differs. -/
def reconcileFields (t : TicketWithCustomFields) (recOpened recClosed : Option String) :
    Option CodeComplianceCustomFields :=
  let newStatus := determineCaseStatus recOpened recClosed
  let currentOpened := jsOrNull t.cc_case_opened
  let currentClosed := jsOrNull t.case_close_date
  let currentStatus := jsOrNull t.last_case_status
  let wantOpened := jsOrNull recOpened
  let wantClosed := jsOrNull recClosed
  let hasOpenedChange := currentOpened ≠ wantOpened
  let hasClosedChange := currentClosed ≠ wantClosed
  let hasStatusChange := currentStatus ≠ some newStatus
  if !hasOpenedChange && !hasClosedChange && !hasStatusChange then none
  else
    some
      { cc_case_opened := if hasOpenedChange && wantOpened.isSome then wantOpened else none
        case_close_date := if hasClosedChange then some wantClosed else none
        last_case_status := if hasStatusChange then some newStatus else none }

/-- How processing one change ended (which summary bucket it falls into). -/
inductive CaseOutcome where
  | dryRun
  | notFound
  | noChanges (ticketId : Int)
  | updated (ticketId : Int)
  | errored (msg : String)
deriving Repr, DecidableEq

/-- Diff the matched ticket fields and issue the conditional remote write
(the body of the loop after a successful match). -/
def actOnTicket (env : SyncEnv) (change : CaseStateChange)
    (t : TicketWithCustomFields) (calls : List RemoteCall) :
    List RemoteCall × CaseOutcome :=
  match reconcileFields t change.record.caseOpened change.record.caseClosed with
  | none => (calls, .noChanges t.id)
  | some payload =>
    match env.remote.update t.id with
    | .ok _ => (calls ++ [.update t.id payload], .updated t.id)
    | .error msg => (calls ++ [.update t.id payload], .errored msg)

/-- Process one change of the sync loop: dry-run guard, ticket resolution,
field diff, conditional remote write.  Per-case errors are caught here. -/
def processChange (env : SyncEnv) (searchApiAvailable : Bool) (change : CaseStateChange) :
    Bool × List RemoteCall × CaseOutcome :=
  if !env.caseUpdatesEnabled then (searchApiAvailable, [], .dryRun)
  else
    match resolveTicket env searchApiAvailable change with
    | (avail, calls, .error msg) => (avail, calls, .errored msg)
    | (avail, calls, .ok none) => (avail, calls, .notFound)
    | (avail, calls, .ok (some t)) => (avail, actOnTicket env change t calls)

/-- Mutable state of the per-change loop. -/
structure LoopState where
  searchApiAvailable : Bool
  db : CaseDb
  calls : List RemoteCall
  updated : Nat
  notFound : Nat
  noChanges : Nat
  errors : Nat
deriving Repr

/-- One iteration of the sync loop: process the change, cache the ticket link
on the no-diff and updated paths, and bump the summary counters. -/
def stepChange (env : SyncEnv) (st : LoopState) (change : CaseStateChange) : LoopState :=
  match processChange env st.searchApiAvailable change with
  | (avail2, calls2, .dryRun) =>
    { st with searchApiAvailable := avail2, calls := st.calls ++ calls2 }
  | (avail2, calls2, .notFound) =>
    { st with searchApiAvailable := avail2, calls := st.calls ++ calls2,
              notFound := st.notFound + 1 }
  | (avail2, calls2, .noChanges tid) =>
    { st with searchApiAvailable := avail2, calls := st.calls ++ calls2,
              db := updateCaseThreefoldId st.db change.caseNo tid,
              noChanges := st.noChanges + 1 }
  | (avail2, calls2, .updated tid) =>
    { st with searchApiAvailable := avail2, calls := st.calls ++ calls2,
              db := updateCaseThreefoldId st.db change.caseNo tid,
              updated := st.updated + 1 }
  | (avail2, calls2, .errored _) =>
    { st with searchApiAvailable := avail2, calls := st.calls ++ calls2,
              errors := st.errors + 1 }

/-- The `diffCases` database query with an injected failure. -/
def diffCasesQuery (env : SyncEnv) (db : CaseDb)
    (records : List CodeEnforcementCaseRecord) : Except String (List CaseStateChange) :=
  match env.diffDbError with
  | some msg => .error msg
  | none => .ok (diffCases db records)

/-- The `upsertCaseState` database write with an injected failure (a batch of
zero records issues no query at all and cannot fail). -/
def upsertCaseStateQuery (env : SyncEnv) (now : Nat) (db : CaseDb)
    (records : List CodeEnforcementCaseRecord) : Except String CaseDb :=
  if records.isEmpty then .ok db
  else
    match env.upsertDbError with
    | some msg => .error msg
    | none => .ok (upsertCaseState now db records)

/-- Result of one sync run: final table, sync log, search flag, the trace of
remote calls, and whether the run completed or re-raised a fatal error. -/
structure SyncResult where
  db : CaseDb
  log : List SyncLogEntry
  searchApiAvailable : Bool
  calls : List RemoteCall
  result : Except String Unit
deriving Repr

/-- Process one Code Enforcement Cases sync run end to end (`processCasesSync`):
create the sync_log row, diff against stored state, walk the changes, persist
the full batch, finalize the log — recording the error and re-raising on the
fatal path. -/
def processCasesSync (env : SyncEnv) (now : Nat) (searchApiAvailable : Bool)
    (db : CaseDb) (log : List SyncLogEntry)
    (records : List CodeEnforcementCaseRecord) : SyncResult :=
  let syncId := log.length
  let log := createSyncLog log "cases"
  match diffCasesQuery env db records with
  | .error msg =>
    { db := db, log := completeSyncLog log syncId records.length 0 1 (some msg),
      searchApiAvailable := searchApiAvailable, calls := [], result := .error msg }
  | .ok changes =>
    if changes.length = 0 then
      match upsertCaseStateQuery env now db records with
      | .error msg =>
        { db := db, log := completeSyncLog log syncId records.length 0 1 (some msg),
          searchApiAvailable := searchApiAvailable, calls := [], result := .error msg }
      | .ok db2 =>
        { db := db2, log := completeSyncLog log syncId records.length 0 0 none,
          searchApiAvailable := searchApiAvailable, calls := [], result := .ok () }
    else
      let st := changes.foldl (stepChange env)
        { searchApiAvailable := searchApiAvailable, db := db, calls := [],
          updated := 0, notFound := 0, noChanges := 0, errors := 0 }
      match upsertCaseStateQuery env now st.db records with
      | .error msg =>
        { db := st.db, log := completeSyncLog log syncId records.length 0 1 (some msg),
          searchApiAvailable := st.searchApiAvailable, calls := st.calls,
          result := .error msg }
      | .ok db2 =>
        { db := db2,
          log := completeSyncLog log syncId records.length st.updated st.errors none,
          searchApiAvailable := st.searchApiAvailable, calls := st.calls,
          result := .ok () }

/-! ### Helper lemmas: deduplication and the state table -/

theorem recFind_map_replace (rec0 : CodeEnforcementCaseRecord)
    (acc : List CodeEnforcementCaseRecord) (c : String) :
    recFind c (acc.map (fun x => if x.caseNo = rec0.caseNo then rec0 else x)) =
      if rec0.caseNo = c then
        (if (recFind rec0.caseNo acc).isSome then some rec0 else none)
      else recFind c acc := by
  induction acc with
  | nil => by_cases h : rec0.caseNo = c <;> simp [recFind, h]
  | cons x t ih =>
    by_cases hx : x.caseNo = rec0.caseNo
    · by_cases hc : rec0.caseNo = c
      · simp [recFind, hx, hc]
      · have hxc : ¬(x.caseNo = c) := fun h => hc (hx ▸ h)
        simp only [List.map_cons, if_pos hx, recFind, if_pos (hx.trans rfl)]
        rw [if_neg hc] at ih ⊢
        simpa [recFind, hc, hxc] using ih
    · by_cases hxc : x.caseNo = c
      · have hc : ¬(rec0.caseNo = c) := fun h => hx (hxc.trans h.symm)
        have hcx : ¬(c = rec0.caseNo) := fun h => hc h.symm
        simp [recFind, hx, hxc, hc, hcx]
      · simp only [List.map_cons, if_neg hx]
        by_cases hc : rec0.caseNo = c
        · simp only [recFind, if_neg hxc, if_neg hx, if_pos hc] at ih ⊢
          exact ih
        · simp only [recFind, if_neg hxc, if_neg hx, if_neg hc] at ih ⊢
          exact ih

theorem recFind_append (c : String) (l1 l2 : List CodeEnforcementCaseRecord) :
    recFind c (l1 ++ l2) =
      match recFind c l1 with
      | some r => some r
      | none => recFind c l2 := by
  induction l1 with
  | nil => simp [recFind]
  | cons x t ih =>
    by_cases hx : x.caseNo = c
    · simp [recFind, hx]
    · simpa [recFind, hx] using ih

theorem recFind_insertLastWins (acc : List CodeEnforcementCaseRecord)
    (rec0 : CodeEnforcementCaseRecord) (c : String) :
    recFind c (insertLastWins acc rec0) =
      if rec0.caseNo = c then some rec0 else recFind c acc := by
  unfold insertLastWins
  by_cases hmem : (recFind rec0.caseNo acc).isSome
  · rw [if_pos hmem, recFind_map_replace]
    by_cases hc : rec0.caseNo = c
    · rw [if_pos hc, if_pos hmem, if_pos hc]
    · rw [if_neg hc, if_neg hc]
  · rw [if_neg hmem, recFind_append]
    by_cases hc : rec0.caseNo = c
    · have : recFind c acc = none := by
        rw [← hc]
        cases h : recFind rec0.caseNo acc with
        | none => rfl
        | some r => rw [h] at hmem; simp at hmem
      simp [this, recFind, hc]
    · cases h : recFind c acc with
      | none => simp [recFind, hc]
      | some r => simp [recFind, hc]

theorem recFind_foldl_insert (l acc : List CodeEnforcementCaseRecord) (c : String) :
    recFind c (l.foldl insertLastWins acc) =
      match lastOccurrence c l with
      | some r => some r
      | none => recFind c acc := by
  induction l generalizing acc with
  | nil => simp [lastOccurrence]
  | cons r t ih =>
    simp only [List.foldl_cons]
    rw [ih]
    cases hlast : lastOccurrence c t with
    | some rr => simp [lastOccurrence, hlast]
    | none =>
      rw [recFind_insertLastWins]
      by_cases hr : r.caseNo = c <;> simp [lastOccurrence, hlast, hr]

theorem recFind_dedupe (records : List CodeEnforcementCaseRecord) (c : String) :
    recFind c (dedupeByCaseNo records) = lastOccurrence c records := by
  rw [dedupeByCaseNo, recFind_foldl_insert]
  cases h : lastOccurrence c records <;> simp [recFind]

theorem recFind_eq_none_iff (c : String) (l : List CodeEnforcementCaseRecord) :
    recFind c l = none ↔ c ∉ l.map (fun r => r.caseNo) := by
  induction l with
  | nil => simp [recFind]
  | cons x t ih =>
    by_cases hx : x.caseNo = c
    · simp [recFind, hx]
    · simp only [recFind, if_neg hx, List.map_cons, List.mem_cons, ih]
      constructor
      · rintro h hmem
        rcases hmem with h1 | h2
        · exact hx h1.symm
        · exact h h2
      · intro h
        exact fun h2 => h (Or.inr h2)

theorem keys_insertLastWins (acc : List CodeEnforcementCaseRecord)
    (rec0 : CodeEnforcementCaseRecord) :
    (insertLastWins acc rec0).map (fun r => r.caseNo) =
      if (recFind rec0.caseNo acc).isSome then acc.map (fun r => r.caseNo)
      else acc.map (fun r => r.caseNo) ++ [rec0.caseNo] := by
  unfold insertLastWins
  by_cases hmem : (recFind rec0.caseNo acc).isSome
  · rw [if_pos hmem, if_pos hmem, List.map_map]
    congr 1
    funext x
    by_cases hx : x.caseNo = rec0.caseNo <;> simp [hx]
  · rw [if_neg hmem, if_neg hmem, List.map_append]
    rfl

theorem nodup_keys_insertLastWins (acc : List CodeEnforcementCaseRecord)
    (rec0 : CodeEnforcementCaseRecord)
    (h : (acc.map (fun r => r.caseNo)).Nodup) :
    ((insertLastWins acc rec0).map (fun r => r.caseNo)).Nodup := by
  rw [keys_insertLastWins]
  by_cases hmem : (recFind rec0.caseNo acc).isSome
  · rwa [if_pos hmem]
  · rw [if_neg hmem]
    have hnot : rec0.caseNo ∉ acc.map (fun r => r.caseNo) := by
      rw [← recFind_eq_none_iff]
      cases hfind : recFind rec0.caseNo acc with
      | none => rfl
      | some r => rw [hfind] at hmem; simp at hmem
    simp [List.nodup_append, h, hnot]

theorem nodup_keys_dedupe (records : List CodeEnforcementCaseRecord) :
    ((dedupeByCaseNo records).map (fun r => r.caseNo)).Nodup := by
  rw [dedupeByCaseNo]
  have main : ∀ (l acc : List CodeEnforcementCaseRecord),
      (acc.map (fun r => r.caseNo)).Nodup →
      ((l.foldl insertLastWins acc).map (fun r => r.caseNo)).Nodup := by
    intro l
    induction l with
    | nil => intro acc h; exact h
    | cons r t ih =>
      intro acc h
      exact ih _ (nodup_keys_insertLastWins acc r h)
  exact main records [] (by simp)

theorem recFind_of_mem_nodup (l : List CodeEnforcementCaseRecord)
    (rec0 : CodeEnforcementCaseRecord)
    (hnd : (l.map (fun r => r.caseNo)).Nodup) (hm : rec0 ∈ l) :
    recFind rec0.caseNo l = some rec0 := by
  induction l with
  | nil => cases hm
  | cons x t ih =>
    rcases List.mem_cons.mp hm with h1 | h2
    · subst h1
      simp [recFind]
    · have hx : ¬(x.caseNo = rec0.caseNo) := by
        intro hcontra
        have : rec0.caseNo ∈ t.map (fun r => r.caseNo) :=
          List.mem_map_of_mem _ h2
        rw [List.map_cons, List.nodup_cons] at hnd
        exact hnd.1 (hcontra ▸ this)
      rw [List.map_cons, List.nodup_cons] at hnd
      simpa [recFind, hx] using ih hnd.2 h2

theorem lastOccurrence_of_mem_dedupe (records : List CodeEnforcementCaseRecord)
    (rec0 : CodeEnforcementCaseRecord) (hm : rec0 ∈ dedupeByCaseNo records) :
    lastOccurrence rec0.caseNo records = some rec0 := by
  rw [← recFind_dedupe]
  exact recFind_of_mem_nodup _ _ (nodup_keys_dedupe records) hm

theorem lastOccurrence_mem (c : String) (l : List CodeEnforcementCaseRecord)
    (rec0 : CodeEnforcementCaseRecord) (h : lastOccurrence c l = some rec0) :
    rec0 ∈ l ∧ rec0.caseNo = c := by
  induction l with
  | nil => simp [lastOccurrence] at h
  | cons x t ih =>
    rw [lastOccurrence] at h
    cases hlast : lastOccurrence c t with
    | some rr =>
      rw [hlast] at h
      obtain ⟨h1, h2⟩ := ih (hlast.trans (congrArg some (Option.some.inj h)))
      exact ⟨List.mem_cons_of_mem _ h1, h2⟩
    | none =>
      rw [hlast] at h
      by_cases hx : x.caseNo = c
      · rw [if_pos hx] at h
        cases h
        exact ⟨List.mem_cons_self _ _, hx⟩
      · rw [if_neg hx] at h
        cases h

theorem lastOccurrence_isSome_of_mem (l : List CodeEnforcementCaseRecord)
    (rec0 : CodeEnforcementCaseRecord) (hm : rec0 ∈ l) :
    ∃ r, lastOccurrence rec0.caseNo l = some r := by
  induction l with
  | nil => cases hm
  | cons x t ih =>
    rcases List.mem_cons.mp hm with h1 | h2
    · subst h1
      rw [lastOccurrence]
      cases hlast : lastOccurrence rec0.caseNo t with
      | some rr => exact ⟨rr, rfl⟩
      | none => exact ⟨rec0, by simp⟩
    · obtain ⟨r, hr⟩ := ih h2
      rw [lastOccurrence, hr]
      exact ⟨r, rfl⟩

theorem dbFind_map_replace (now : Nat) (rec0 : CodeEnforcementCaseRecord)
    (db : CaseDb) (c : String) :
    dbFind (db.map (fun kv =>
        if kv.1 = rec0.caseNo then (kv.1, applyUpdate now rec0 kv.2) else kv)) c =
      if rec0.caseNo = c then (dbFind db c).map (applyUpdate now rec0)
      else dbFind db c := by
  induction db with
  | nil => by_cases hc : rec0.caseNo = c <;> simp [dbFind, hc]
  | cons kv t ih =>
    by_cases hk : kv.1 = rec0.caseNo
    · by_cases hc : rec0.caseNo = c
      · simp [dbFind, hk, hc]
      · have hkc : ¬(kv.1 = c) := fun h => hc (hk ▸ h : rec0.caseNo = c)
        simp only [List.map_cons, if_pos hk]
        rw [if_neg hc] at ih ⊢
        simpa [dbFind, hkc] using ih
    · by_cases hkc : kv.1 = c
      · have hc : ¬(rec0.caseNo = c) := fun h => hk (hkc.trans h.symm)
        have hcx : ¬(c = rec0.caseNo) := fun h => hc h.symm
        simp [dbFind, hk, hkc, hc, hcx]
      · simp only [List.map_cons, if_neg hk]
        by_cases hc : rec0.caseNo = c
        · simp only [dbFind, if_neg hkc, if_pos hc] at ih ⊢
          exact ih
        · simp only [dbFind, if_neg hkc, if_neg hc] at ih ⊢
          exact ih

theorem dbFind_append (c : String) (l1 l2 : CaseDb) :
    dbFind (l1 ++ l2) c =
      match dbFind l1 c with
      | some r => some r
      | none => dbFind l2 c := by
  induction l1 with
  | nil => simp [dbFind]
  | cons kv t ih =>
    by_cases hk : kv.1 = c
    · simp [dbFind, hk]
    · simpa [dbFind, hk] using ih

theorem dbFind_upsertRow (now : Nat) (db : CaseDb)
    (rec0 : CodeEnforcementCaseRecord) (c : String) :
    dbFind (upsertRow now db rec0) c =
      if rec0.caseNo = c then
        some (match dbFind db rec0.caseNo with
              | some old => applyUpdate now rec0 old
              | none => mkNewRow now rec0)
      else dbFind db c := by
  unfold upsertRow
  cases hfind : dbFind db rec0.caseNo with
  | some old =>
    rw [dbFind_map_replace]
    by_cases hc : rec0.caseNo = c
    · rw [if_pos hc, if_pos hc, ← hc, hfind]
      rfl
    · rw [if_neg hc, if_neg hc]
  | none =>
    rw [dbFind_append]
    by_cases hc : rec0.caseNo = c
    · rw [← hc, hfind]
      simp [dbFind]
    · cases h2 : dbFind db c with
      | none => simp [dbFind, hc]
      | some r => simp [dbFind, hc]

theorem dbFind_foldl_upsertRow (now : Nat) (u : List CodeEnforcementCaseRecord)
    (hnd : (u.map (fun r => r.caseNo)).Nodup) (db : CaseDb) (c : String) :
    dbFind (u.foldl (upsertRow now) db) c =
      match recFind c u with
      | some r =>
        some (match dbFind db c with
              | some old => applyUpdate now r old
              | none => mkNewRow now r)
      | none => dbFind db c := by
  induction u generalizing db with
  | nil => simp [recFind]
  | cons r t ih =>
    rw [List.map_cons, List.nodup_cons] at hnd
    simp only [List.foldl_cons]
    rw [ih hnd.2]
    by_cases hr : r.caseNo = c
    · have ht : recFind c t = none := by
        rw [recFind_eq_none_iff, ← hr]
        exact hnd.1
      rw [recFind, if_pos hr, ht, dbFind_upsertRow, if_pos hr, ← hr]
    · rw [recFind, if_neg hr]
      cases hfind : recFind c t with
      | some rr =>
        rw [dbFind_upsertRow, if_neg hr]
      | none =>
        rw [dbFind_upsertRow, if_neg hr]

theorem foldl_chunksGo {β : Type} (g : β → CodeEnforcementCaseRecord → β)
    (n : Nat) (fuel : Nat) (l : List CodeEnforcementCaseRecord)
    (hfuel : l.length ≤ fuel) (init : β) :
    (chunksGo n fuel l).foldl (fun d chunk => chunk.foldl g d) init =
      l.foldl g init := by
  induction fuel generalizing l init with
  | zero =>
    have : l = [] := List.length_eq_zero.mp (Nat.le_zero.mp hfuel)
    subst this
    simp [chunksGo]
  | succ fuel ih =>
    cases l with
    | nil => simp [chunksGo]
    | cons x xs =>
      rw [chunksGo]
      have hfuel2 : xs.length + 1 ≤ fuel + 1 := by simpa using hfuel
      simp only [List.foldl_cons]
      rw [ih _ (by
        simp only [List.length_drop, List.length_cons]
        have hm : 1 ≤ max 1 n := le_max_left 1 n
        omega)]
      rw [← List.foldl_append, List.take_append_drop]
      rfl

theorem upsertCaseState_eq_foldl (now : Nat) (db : CaseDb)
    (records : List CodeEnforcementCaseRecord) :
    upsertCaseState now db records =
      if records.isEmpty then db
      else (dedupeByCaseNo records).foldl (upsertRow now) db := by
  unfold upsertCaseState
  by_cases h : records.isEmpty
  · rw [if_pos h, if_pos h]
  · rw [if_neg h, if_neg h, chunksPos, foldl_chunksGo _ _ _ _ (Nat.le_refl _)]

theorem dedupe_nil_iff (records : List CodeEnforcementCaseRecord) :
    records.isEmpty = true → dedupeByCaseNo records = [] := by
  cases records with
  | nil => intro _; rfl
  | cons r t => intro h; simp at h

theorem dbFind_upsertCaseState (now : Nat) (db : CaseDb)
    (records : List CodeEnforcementCaseRecord) (c : String) :
    dbFind (upsertCaseState now db records) c =
      match lastOccurrence c records with
      | some r =>
        some (match dbFind db c with
              | some old => applyUpdate now r old
              | none => mkNewRow now r)
      | none => dbFind db c := by
  rw [upsertCaseState_eq_foldl]
  by_cases h : records.isEmpty
  · cases records with
    | nil => simp [lastOccurrence]
    | cons r t => simp at h
  · rw [if_neg h, dbFind_foldl_upsertRow now _ (nodup_keys_dedupe records),
      recFind_dedupe]

theorem dbFind_eq_none_iff (db : CaseDb) (c : String) :
    dbFind db c = none ↔ c ∉ db.map Prod.fst := by
  induction db with
  | nil => simp [dbFind]
  | cons kv t ih =>
    by_cases hk : kv.1 = c
    · simp [dbFind, hk]
    · simp only [dbFind, if_neg hk, List.map_cons, List.mem_cons, ih]
      constructor
      · rintro h (h1 | h2)
        · exact hk h1.symm
        · exact h h2
      · intro h
        exact fun h2 => h (Or.inr h2)

theorem dbFind_isSome_mem (db : CaseDb) (c : String) (row : CaseRow)
    (h : dbFind db c = some row) : c ∈ db.map Prod.fst := by
  by_contra hmem
  rw [← dbFind_eq_none_iff] at hmem
  rw [hmem] at h
  cases h

theorem keys_upsertRow (now : Nat) (db : CaseDb) (rec0 : CodeEnforcementCaseRecord) :
    (upsertRow now db rec0).map Prod.fst =
      if (dbFind db rec0.caseNo).isSome then db.map Prod.fst
      else db.map Prod.fst ++ [rec0.caseNo] := by
  unfold upsertRow
  cases hfind : dbFind db rec0.caseNo with
  | some old =>
    simp only [Option.isSome_some, if_true, List.map_map]
    congr 1
    funext kv
    by_cases hk : kv.1 = rec0.caseNo <;> simp [hk]
  | none =>
    simp

theorem nodup_keys_upsertRow (now : Nat) (db : CaseDb)
    (rec0 : CodeEnforcementCaseRecord) (h : (db.map Prod.fst).Nodup) :
    ((upsertRow now db rec0).map Prod.fst).Nodup := by
  rw [keys_upsertRow]
  cases hfind : dbFind db rec0.caseNo with
  | some old => simpa using h
  | none =>
    have hnot : rec0.caseNo ∉ db.map Prod.fst := (dbFind_eq_none_iff db _).mp hfind
    simp [List.nodup_append, h, hnot]

theorem nodup_keys_foldl_upsertRow (now : Nat) (u : List CodeEnforcementCaseRecord)
    (db : CaseDb) (h : (db.map Prod.fst).Nodup) :
    (((u.foldl (upsertRow now) db)).map Prod.fst).Nodup := by
  induction u generalizing db with
  | nil => exact h
  | cons r t ih =>
    exact ih _ (nodup_keys_upsertRow now db r h)

theorem nodup_keys_upsertCaseState (now : Nat) (db : CaseDb)
    (records : List CodeEnforcementCaseRecord) (h : (db.map Prod.fst).Nodup) :
    ((upsertCaseState now db records).map Prod.fst).Nodup := by
  rw [upsertCaseState_eq_foldl]
  by_cases he : records.isEmpty
  · rwa [if_pos he]
  · rw [if_neg he]
    exact nodup_keys_foldl_upsertRow now _ db h

theorem count_keys_eq_one (db : CaseDb) (c : String) (row : CaseRow)
    (hnd : (db.map Prod.fst).Nodup) (h : dbFind db c = some row) :
    (db.map Prod.fst).count c = 1 :=
  List.count_eq_one_of_mem hnd (dbFind_isSome_mem db c row h)

/-! ### Helper lemmas: sync log and orchestrator paths -/

theorem get?_append_singleton (l : List α) (e : α) :
    (l ++ [e]).get? l.length = some e := by
  induction l with
  | nil => rfl
  | cons x t ih => simp only [List.cons_append, List.length_cons, List.get?]; exact ih

theorem get?_modifyAt (f : α → α) (n : Nat) (l : List α) :
    (modifyAt f n l).get? n = (l.get? n).map f := by
  induction l generalizing n with
  | nil => cases n <;> rfl
  | cons x t ih =>
    cases n with
    | zero => rfl
    | succ m => simpa [modifyAt] using ih m

theorem completeSyncLog_created (log : List SyncLogEntry) (ty : String)
    (t c e : Nat) (m : Option String) :
    (completeSyncLog (createSyncLog log ty) log.length t c e m).get? log.length =
      some { sync_type := ty, completed := true, total_records := t,
             changed_records := c, errors := e, error_message := m } := by
  rw [completeSyncLog, get?_modifyAt, createSyncLog, get?_append_singleton]
  rfl

theorem upsertCaseStateQuery_ok (env : SyncEnv) (now : Nat) (d : CaseDb)
    (records : List CodeEnforcementCaseRecord) (d2 : CaseDb)
    (h : upsertCaseStateQuery env now d records = .ok d2) :
    d2 = upsertCaseState now d records := by
  unfold upsertCaseStateQuery at h
  by_cases he : records.isEmpty
  · rw [if_pos he] at h
    cases h
    rw [upsertCaseState, if_pos he]
  · rw [if_neg he] at h
    cases henv : env.upsertDbError with
    | some msg => rw [henv] at h; cases h
    | none => rw [henv] at h; cases h; rfl

theorem processCasesSync_log (env : SyncEnv) (now : Nat) (avail : Bool)
    (db : CaseDb) (log : List SyncLogEntry)
    (records : List CodeEnforcementCaseRecord) :
    ∃ entry,
      (processCasesSync env now avail db log records).log.get? log.length = some entry ∧
      entry.completed = true ∧ entry.total_records = records.length ∧
      ∀ msg, (processCasesSync env now avail db log records).result = .error msg →
        entry.error_message = some msg ∧ entry.errors = 1 := by
  unfold processCasesSync
  cases hdq : diffCasesQuery env db records with
  | error msg =>
    refine ⟨_, completeSyncLog_created log "cases" records.length 0 1 (some msg), rfl, rfl, ?_⟩
    intro m hm
    cases hm
    exact ⟨rfl, rfl⟩
  | ok changes =>
    dsimp only
    by_cases hlen : changes.length = 0
    · rw [if_pos hlen]
      cases huq : upsertCaseStateQuery env now db records with
      | error msg =>
        refine ⟨_, completeSyncLog_created log "cases" records.length 0 1 (some msg), rfl, rfl, ?_⟩
        intro m hm
        cases hm
        exact ⟨rfl, rfl⟩
      | ok db2 =>
        refine ⟨_, completeSyncLog_created log "cases" records.length 0 0 none, rfl, rfl, ?_⟩
        intro m hm
        cases hm
    · rw [if_neg hlen]
      cases huq : upsertCaseStateQuery env now
          (changes.foldl (stepChange env)
            { searchApiAvailable := avail, db := db, calls := [],
              updated := 0, notFound := 0, noChanges := 0, errors := 0 }).db records with
      | error msg =>
        refine ⟨_, completeSyncLog_created log "cases" records.length 0 1 (some msg), rfl, rfl, ?_⟩
        intro m hm
        cases hm
        exact ⟨rfl, rfl⟩
      | ok db2 =>
        refine ⟨_, completeSyncLog_created log "cases" records.length _ _ none, rfl, rfl, ?_⟩
        intro m hm
        cases hm

theorem processCasesSync_ok_shape (env : SyncEnv) (now : Nat) (avail : Bool)
    (db : CaseDb) (log : List SyncLogEntry)
    (records : List CodeEnforcementCaseRecord)
    (h : (processCasesSync env now avail db log records).result = .ok ()) :
    env.diffDbError = none ∧
    (records.isEmpty = false → env.upsertDbError = none) ∧
    ∃ dbMid, (processCasesSync env now avail db log records).db =
      upsertCaseState now dbMid records := by
  unfold processCasesSync at h ⊢
  cases hdq : diffCasesQuery env db records with
  | error msg =>
    rw [hdq] at h
    cases h
  | ok changes =>
    have hdiff : env.diffDbError = none := by
      unfold diffCasesQuery at hdq
      cases hd : env.diffDbError with
      | some m => rw [hd] at hdq; cases hdq
      | none => rfl
    rw [hdq] at h
    dsimp only at h ⊢
    by_cases hlen : changes.length = 0
    · rw [if_pos hlen] at h ⊢
      cases huq : upsertCaseStateQuery env now db records with
      | error msg => rw [huq] at h; exact Except.noConfusion h
      | ok db2 =>
        refine ⟨hdiff, ?_, db, upsertCaseStateQuery_ok env now db records db2 huq⟩
        intro hne
        unfold upsertCaseStateQuery at huq
        rw [hne] at huq
        cases hu : env.upsertDbError with
        | some m => rw [hu] at huq; simp at huq
        | none => rfl
    · rw [if_neg hlen] at h ⊢
      cases huq : upsertCaseStateQuery env now
          (changes.foldl (stepChange env)
            { searchApiAvailable := avail, db := db, calls := [],
              updated := 0, notFound := 0, noChanges := 0, errors := 0 }).db records with
      | error msg => rw [huq] at h; exact Except.noConfusion h
      | ok db2 =>
        refine ⟨hdiff, ?_, _, upsertCaseStateQuery_ok env now _ records db2 huq⟩
        intro hne
        unfold upsertCaseStateQuery at huq
        rw [hne] at huq
        cases hu : env.upsertDbError with
        | some m => rw [hu] at huq; simp at huq
        | none => rfl

theorem applyUpdate_content_hash (now : Nat) (r : CodeEnforcementCaseRecord)
    (old : CaseRow) : (applyUpdate now r old).content_hash = generateCaseHash r := by
  dsimp only [applyUpdate]

theorem applyUpdate_last_seen_at (now : Nat) (r : CodeEnforcementCaseRecord)
    (old : CaseRow) : (applyUpdate now r old).last_seen_at = now := by
  dsimp only [applyUpdate]

theorem applyUpdate_threefold (now : Nat) (r : CodeEnforcementCaseRecord)
    (old : CaseRow) :
    (applyUpdate now r old).threefold_ticket_id = old.threefold_ticket_id := by
  dsimp only [applyUpdate]

theorem applyUpdate_created_at (now : Nat) (r : CodeEnforcementCaseRecord)
    (old : CaseRow) : (applyUpdate now r old).created_at = old.created_at := by
  dsimp only [applyUpdate]

theorem applyUpdate_record_fields (now : Nat) (r : CodeEnforcementCaseRecord)
    (old : CaseRow) :
    (applyUpdate now r old).case_opened = r.caseOpened ∧
    (applyUpdate now r old).case_closed = r.caseClosed ∧
    (applyUpdate now r old).case_status = determineCaseStatus r.caseOpened r.caseClosed ∧
    (applyUpdate now r old).case_type = r.caseType ∧
    (applyUpdate now r old).case_subtype = r.caseSubType ∧
    (applyUpdate now r old).site_address = r.siteAddress ∧
    (applyUpdate now r old).raw_data = r.rawData := by
  refine ⟨?_, ?_, ?_, ?_, ?_, ?_, ?_⟩ <;> dsimp only [applyUpdate]

theorem mkNewRow_content_hash (now : Nat) (r : CodeEnforcementCaseRecord) :
    (mkNewRow now r).content_hash = generateCaseHash r := by
  dsimp only [mkNewRow]

theorem mkNewRow_last_seen_at (now : Nat) (r : CodeEnforcementCaseRecord) :
    (mkNewRow now r).last_seen_at = now := by
  dsimp only [mkNewRow]

theorem mkNewRow_threefold (now : Nat) (r : CodeEnforcementCaseRecord) :
    (mkNewRow now r).threefold_ticket_id = none := by
  dsimp only [mkNewRow]

theorem mkNewRow_record_fields (now : Nat) (r : CodeEnforcementCaseRecord) :
    (mkNewRow now r).case_opened = r.caseOpened ∧
    (mkNewRow now r).case_closed = r.caseClosed ∧
    (mkNewRow now r).case_status = determineCaseStatus r.caseOpened r.caseClosed ∧
    (mkNewRow now r).case_type = r.caseType ∧
    (mkNewRow now r).case_subtype = r.caseSubType ∧
    (mkNewRow now r).site_address = r.siteAddress ∧
    (mkNewRow now r).raw_data = r.rawData := by
  refine ⟨?_, ?_, ?_, ?_, ?_, ?_, ?_⟩ <;> dsimp only [mkNewRow]

theorem dbFind_upsertCaseState_hash (now : Nat) (db : CaseDb)
    (records : List CodeEnforcementCaseRecord) (c : String)
    (r : CodeEnforcementCaseRecord) (h : lastOccurrence c records = some r) :
    ∃ row, dbFind (upsertCaseState now db records) c = some row ∧
      row.content_hash = generateCaseHash r ∧ row.last_seen_at = now := by
  rw [dbFind_upsertCaseState, h]
  cases hd : dbFind db c with
  | some old =>
    exact ⟨applyUpdate now r old, rfl,
      applyUpdate_content_hash now r old, applyUpdate_last_seen_at now r old⟩
  | none =>
    exact ⟨mkNewRow now r, rfl, mkNewRow_content_hash now r, mkNewRow_last_seen_at now r⟩

theorem dbFind_upsertCaseState_untouched (now : Nat) (db : CaseDb)
    (records : List CodeEnforcementCaseRecord) (c : String)
    (h : lastOccurrence c records = none) :
    dbFind (upsertCaseState now db records) c = dbFind db c := by
  rw [dbFind_upsertCaseState, h]

theorem diffCases_eq_nil (db : CaseDb) (records : List CodeEnforcementCaseRecord)
    (h : ∀ r ∈ dedupeByCaseNo records, ∃ row,
        dbFind db r.caseNo = some row ∧ row.content_hash = generateCaseHash r) :
    diffCases db records = [] := by
  rw [diffCases, List.filterMap_eq_nil_iff]
  intro r hr
  obtain ⟨row, hrow, hhash⟩ := h r hr
  simp [hrow, hhash]

/-! ### Helper lemmas: search flag and remote calls -/

theorem findTicket_down (env : SyncEnv) (c : String) :
    findTicketByCaseNumber env false c = (false, [], .ok none) := rfl

theorem searchErrorFallback_fst_false (c msg : String) :
    (searchErrorFallback false c msg).1 = false := by
  unfold searchErrorFallback
  by_cases h405 : includes405 msg = true
  · rw [if_pos h405]
  · rw [if_neg h405]

theorem resolveTicket_down_avail (env : SyncEnv) (change : CaseStateChange) :
    (resolveTicket env false change).1 = false := by
  unfold resolveTicket
  by_cases ht : jsTruthyNum change.threefoldTicketId = true
  · rw [if_pos ht]
    cases hg : env.remote.getById (change.threefoldTicketId.getD 0) with
    | error msg => rfl
    | ok t? =>
      cases t? with
      | some t => rfl
      | none => rfl
  · rw [if_neg ht]
    rfl

theorem processChange_down_avail (env : SyncEnv) (change : CaseStateChange) :
    (processChange env false change).1 = false := by
  have hres := resolveTicket_down_avail env change
  unfold processChange
  by_cases he : (!env.caseUpdatesEnabled) = true
  · rw [if_pos he]
  · rw [if_neg he]
    rcases hr : resolveTicket env false change with ⟨a, calls, res⟩
    rw [hr] at hres
    cases res with
    | error msg => exact hres
    | ok t? =>
      cases t? with
      | none => exact hres
      | some t => exact hres

theorem stepChange_down_avail (env : SyncEnv) (st : LoopState)
    (change : CaseStateChange) (h : st.searchApiAvailable = false) :
    (stepChange env st change).searchApiAvailable = false := by
  have hpc := processChange_down_avail env change
  unfold stepChange
  rw [h]
  rcases hr : processChange env false change with ⟨a, calls, outcome⟩
  rw [hr] at hpc
  cases outcome with
  | dryRun => exact hpc
  | notFound => exact hpc
  | noChanges tid => exact hpc
  | updated tid => exact hpc
  | errored m => exact hpc

theorem foldl_stepChange_down_avail (env : SyncEnv)
    (changes : List CaseStateChange) :
    ∀ st : LoopState, st.searchApiAvailable = false →
      (changes.foldl (stepChange env) st).searchApiAvailable = false := by
  induction changes with
  | nil => intro st h; exact h
  | cons ch t ih =>
    intro st h
    exact ih _ (stepChange_down_avail env st ch h)

theorem processCasesSync_down_avail (env : SyncEnv) (now : Nat) (db : CaseDb)
    (log : List SyncLogEntry) (records : List CodeEnforcementCaseRecord) :
    (processCasesSync env now false db log records).searchApiAvailable = false := by
  unfold processCasesSync
  cases hdq : diffCasesQuery env db records with
  | error msg => rfl
  | ok changes =>
    dsimp only
    by_cases hlen : changes.length = 0
    · rw [if_pos hlen]
      cases huq : upsertCaseStateQuery env now db records with
      | error msg => rfl
      | ok db2 => rfl
    · rw [if_neg hlen]
      have hst := foldl_stepChange_down_avail env changes
        { searchApiAvailable := false, db := db, calls := [],
          updated := 0, notFound := 0, noChanges := 0, errors := 0 } rfl
      cases huq : upsertCaseStateQuery env now
          (changes.foldl (stepChange env)
            { searchApiAvailable := false, db := db, calls := [],
              updated := 0, notFound := 0, noChanges := 0, errors := 0 }).db records with
      | error msg => exact hst
      | ok db2 => exact hst

theorem searchErrorFallback_calls (avail : Bool) (c msg : String) :
    (searchErrorFallback avail c msg).2.1 = [RemoteCall.search c] := by
  unfold searchErrorFallback
  by_cases h405 : includes405 msg = true
  · rw [if_pos h405]
  · rw [if_neg h405]

theorem findTicket_calls_no_update (env : SyncEnv) (avail : Bool) (c : String) :
    ∀ call ∈ (findTicketByCaseNumber env avail c).2.1, isUpdateCall call = false := by
  unfold findTicketByCaseNumber
  by_cases ha : (!avail) = true
  · rw [if_pos ha]
    intro call hc
    cases hc
  · rw [if_neg ha]
    cases hs : env.remote.search c with
    | ok tickets =>
      intro call hc
      have hc2 : call ∈ [RemoteCall.search c] := hc
      rw [List.mem_singleton] at hc2
      subst hc2
      rfl
    | error msg =>
      intro call hc
      have hc2 : call ∈ (searchErrorFallback avail c msg).2.1 := hc
      rw [searchErrorFallback_calls] at hc2
      rw [List.mem_singleton] at hc2
      subst hc2
      rfl

theorem resolveTicket_calls_no_update (env : SyncEnv) (avail : Bool)
    (change : CaseStateChange) :
    ∀ call ∈ (resolveTicket env avail change).2.1, isUpdateCall call = false := by
  unfold resolveTicket
  by_cases ht : jsTruthyNum change.threefoldTicketId = true
  · rw [if_pos ht]
    cases hg : env.remote.getById (change.threefoldTicketId.getD 0) with
    | error msg =>
      intro call hc
      have hc2 : call ∈ [RemoteCall.getById (change.threefoldTicketId.getD 0)] := hc
      rw [List.mem_singleton] at hc2
      subst hc2
      rfl
    | ok t? =>
      cases t? with
      | some t =>
        intro call hc
        have hc2 : call ∈ [RemoteCall.getById (change.threefoldTicketId.getD 0)] := hc
        rw [List.mem_singleton] at hc2
        subst hc2
        rfl
      | none =>
        intro call hc
        have hc2 : call ∈ RemoteCall.getById (change.threefoldTicketId.getD 0) ::
            (findTicketByCaseNumber env avail change.caseNo).2.1 := hc
        rcases List.mem_cons.mp hc2 with h1 | hmem
        · subst h1
          rfl
        · exact findTicket_calls_no_update env avail change.caseNo call hmem
  · rw [if_neg ht]
    exact findTicket_calls_no_update env avail change.caseNo

/-! ### Helper lemmas: field reconciliation and the zero-change run -/

theorem reconcileFields_eq (t : TicketWithCustomFields) (ro rc : Option String) :
    reconcileFields t ro rc =
      if jsOrNull t.cc_case_opened = jsOrNull ro ∧
         jsOrNull t.case_close_date = jsOrNull rc ∧
         jsOrNull t.last_case_status = some (determineCaseStatus ro rc) then none
      else some
        { cc_case_opened :=
            if jsOrNull t.cc_case_opened ≠ jsOrNull ro ∧ (jsOrNull ro).isSome then
              jsOrNull ro
            else none
          case_close_date :=
            if jsOrNull t.case_close_date ≠ jsOrNull rc then some (jsOrNull rc)
            else none
          last_case_status :=
            if jsOrNull t.last_case_status ≠ some (determineCaseStatus ro rc) then
              some (determineCaseStatus ro rc)
            else none } := by
  unfold reconcileFields
  by_cases h1 : jsOrNull t.cc_case_opened = jsOrNull ro <;>
    by_cases h2 : jsOrNull t.case_close_date = jsOrNull rc <;>
      by_cases h3 : jsOrNull t.last_case_status = some (determineCaseStatus ro rc) <;>
        simp [h1, h2, h3]

theorem processChange_noChanges (env : SyncEnv) (avail : Bool)
    (change : CaseStateChange) (a : Bool) (calls : List RemoteCall)
    (t : TicketWithCustomFields)
    (he : env.caseUpdatesEnabled = true)
    (hres : resolveTicket env avail change = (a, calls, .ok (some t)))
    (hrec : reconcileFields t change.record.caseOpened change.record.caseClosed = none) :
    processChange env avail change = (a, calls, .noChanges t.id) := by
  unfold processChange
  rw [he]
  rw [if_neg (by simp)]
  rw [hres]
  show (a, actOnTicket env change t calls) = (a, calls, CaseOutcome.noChanges t.id)
  unfold actOnTicket
  rw [hrec]

theorem processCasesSync_no_changes (env : SyncEnv) (now : Nat) (avail : Bool)
    (db : CaseDb) (log : List SyncLogEntry)
    (records : List CodeEnforcementCaseRecord)
    (hdiff0 : env.diffDbError = none)
    (hnil : diffCases db records = []) :
    (processCasesSync env now avail db log records).calls = [] ∧
    ((processCasesSync env now avail db log records).db = db ∨
     (processCasesSync env now avail db log records).db =
       upsertCaseState now db records) := by
  have hdq : diffCasesQuery env db records = .ok [] := by
    unfold diffCasesQuery
    rw [hdiff0, hnil]
  unfold processCasesSync
  rw [hdq]
  dsimp only
  rw [if_pos (show ([] : List CaseStateChange).length = 0 from rfl)]
  cases huq : upsertCaseStateQuery env now db records with
  | error msg => exact ⟨rfl, Or.inl rfl⟩
  | ok db2 =>
    exact ⟨rfl, Or.inr (upsertCaseStateQuery_ok env now db records db2 huq)⟩

/-! ### Concrete fixtures used by witnesses -/

/-- A sample parsed record: a newly opened case. -/
def recW : CodeEnforcementCaseRecord :=
  { caseNo := "CE24-0001", caseOpened := some "2025-01-01", caseClosed := none,
    caseType := "CODE ENFORCEMENT", caseSubType := "", siteAddress := "",
    rawData := [] }

/-- The same case as `recW` with every non-fingerprint field changed. -/
def recW2 : CodeEnforcementCaseRecord :=
  { recW with
    caseType := "OTHER"
    caseSubType := "X"
    siteAddress := "1 Main St"
    rawData := [("CASE_NO", "CE24-0001")] }

/-- The same case as `recW`, later occurrence carrying a closed date. -/
def recW3 : CodeEnforcementCaseRecord :=
  { recW with caseClosed := some "2025-02-01" }

/-- A remote ticket whose custom fields already equal the desired values of `recW`. -/
def ticketMatch : TicketWithCustomFields :=
  { id := 42, cc_case_opened := some "2025-01-01", case_close_date := none,
    last_case_status := some "open" }

/-- A remote ticket with stale (empty) custom fields. -/
def ticketStale : TicketWithCustomFields :=
  { id := 42, cc_case_opened := none, case_close_date := none,
    last_case_status := none }

/-- A remote store whose search always finds the given ticket. -/
def remoteHit (t : TicketWithCustomFields) : RemoteEnv :=
  { getById := fun _ => .ok none, search := fun _ => .ok [t],
    update := fun _ => .ok () }

/-- Dry-run environment (updates disabled). -/
def envDry : SyncEnv :=
  { remote := remoteHit ticketMatch, caseUpdatesEnabled := false }

/-- Environment with updates enabled whose search finds an up-to-date ticket. -/
def envMatch : SyncEnv :=
  { remote := remoteHit ticketMatch, caseUpdatesEnabled := true }

/-- Environment with updates enabled whose search finds a stale ticket. -/
def envStale : SyncEnv :=
  { remote := remoteHit ticketStale, caseUpdatesEnabled := true }

/-- Environment whose remote search reports the capability-unavailable signal. -/
def env405 : SyncEnv :=
  { remote := { getById := fun _ => .ok none,
                search := fun _ => .error "Failed to search tickets: 405 Method Not Allowed",
                update := fun _ => .ok () },
    caseUpdatesEnabled := true }

/-- A change as emitted by the detector for `recW` with no prior state. -/
def changeW : CaseStateChange :=
  { caseNo := "CE24-0001", record := recW, previousHash := none,
    newHash := "", isNew := true, previousOpened := none, previousClosed := none,
    previousStatus := none, threefoldTicketId := none }

/-- A stored row carrying a cached remote link, used by the frame witness. -/
def rowOld : CaseRow :=
  { case_opened := some "2025-01-01", case_closed := none, case_status := "open",
    case_type := "", case_subtype := "", site_address := "", raw_data := [],
    content_hash := "stale", threefold_ticket_id := some 7,
    last_seen_at := 0, created_at := 0 }

/-! ### Claim theorems -/

/-- C5: the content fingerprint depends only on `(caseNo, caseOpened, caseClosed)`:
two records agreeing on those three fields receive the same hash regardless of
caseType, caseSubType, siteAddress and rawData.  The hash is the fixed scheme
`(sha256hex (caseNo|opened|closed)).take 16`, so it is stable across runs. -/
theorem C5_fingerprint_depends_only_on_key_and_dates
    (r1 r2 : CodeEnforcementCaseRecord)
    (hno : r1.caseNo = r2.caseNo) (ho : r1.caseOpened = r2.caseOpened)
    (hc : r1.caseClosed = r2.caseClosed) :
    generateCaseHash r1 = generateCaseHash r2 := by
  unfold generateCaseHash
  rw [hno, ho, hc]

/-- C5 witness: two records differing in category, subcategory, address and raw
data but agreeing on the fingerprint fields hash identically. -/
theorem C5_witness :
    generateCaseHash recW = generateCaseHash recW2 ∧ recW.caseType ≠ recW2.caseType :=
  ⟨C5_fingerprint_depends_only_on_key_and_dates recW recW2 rfl rfl rfl, by decide⟩

/-- C6: the derived status is closed exactly when both the opened and the
closed date are present (JS-truthy, i.e. non-null and non-empty), and open in
every other combination, including both absent and closed-only. -/
theorem C6_status_closed_iff_both_present (o c : Option String) :
    (determineCaseStatus o c = "closed" ↔ jsTruthy o = true ∧ jsTruthy c = true) ∧
    (determineCaseStatus o c = "open" ↔ ¬(jsTruthy o = true ∧ jsTruthy c = true)) := by
  unfold determineCaseStatus
  by_cases ho : jsTruthy o = true <;> by_cases hc : jsTruthy c = true <;>
    simp [ho, hc]

/-- C6 witness: a closed-only pair derives open, a complete pair derives closed. -/
theorem C6_witness :
    determineCaseStatus none (some "2025-02-01") = "open" ∧
    determineCaseStatus (some "2025-01-01") (some "2025-02-01") = "closed" :=
  ⟨(C6_status_closed_iff_both_present none (some "2025-02-01")).2.mpr (by decide),
   (C6_status_closed_iff_both_present (some "2025-01-01") (some "2025-02-01")).1.mpr
     (by decide)⟩

/-- The update payload the stale-ticket run issues: opened date and status, but
no closed date (unchanged). -/
def payloadStale : CodeComplianceCustomFields :=
  { cc_case_opened := some "2025-01-01", case_close_date := none,
    last_case_status := some "open" }

/-- C9 (code bug shown at a concrete input): a run with updates enabled sees a
brand-new case, matches remote ticket 42 via search, writes the field update —
yet after the run the stored row's cached remote link is null, not 42: the
loop's `UPDATE case_state SET threefold_ticket_id` hits zero rows because the
row is only inserted by the later bulk upsert, which leaves the link null. -/
theorem C9_new_case_link_dropped :
    (processCasesSync envStale 3 true [] [] [recW]).result = .ok () ∧
    (processCasesSync envStale 3 true [] [] [recW]).calls =
      [.search "CE24-0001", .update 42 payloadStale] ∧
    (dbFind (processCasesSync envStale 3 true [] [] [recW]).db "CE24-0001").map
      (fun row => row.threefold_ticket_id) = some none := by
  refine ⟨rfl, rfl, rfl⟩

/-- Modelled from the spec: the claimed validator pattern, read literally —
two letters, two digits, a hyphen, and a non-empty numeric suffix.  Used only
to compare the spec text against the implemented regex. -/
def claimedCaseIdPattern (s : String) : Bool :=
  match s.data with
  | a :: b :: c :: d :: e :: rest =>
    a.isAlpha && b.isAlpha && c.isDigit && d.isDigit && (e == '-') &&
      !rest.isEmpty && rest.all Char.isDigit
  | _ => false

/-- C3 counterexample: "AB12-1" is two letters, two digits, a hyphen and a
numeric suffix, yet the validator rejects it — the implemented regex
`C[A-Z]\d\d-\d+` pins the first letter to the literal C. -/
theorem C3_counterexample :
    claimedCaseIdPattern "AB12-1" = true ∧ isValidCaseNo "AB12-1" = false := by
  exact ⟨rfl, rfl⟩

theorem isEmptyFalseIff (l : List Char) : l.isEmpty = false ↔ l ≠ [] := by
  cases l <;> simp

theorem validCaseNoChars (a b c d e : Char) (rest : List Char) :
    ((a == 'C') && b.isUpper && c.isDigit && d.isDigit && (e == '-') &&
      !rest.isEmpty && rest.all Char.isDigit) = true ↔
    (a = 'C' ∧ e = '-' ∧ b.isUpper = true ∧ c.isDigit = true ∧ d.isDigit = true ∧
     rest ≠ [] ∧ ∀ x ∈ rest, x.isDigit = true) := by
  simp only [Bool.and_eq_true, beq_iff_eq, List.all_eq_true, Bool.not_eq_true',
    isEmptyFalseIff]
  tauto

theorem parseRows_fold_spec (rows : List CsvRow) :
    ∀ (acc : List CodeEnforcementCaseRecord) (k : Nat),
      (∀ r ∈ acc, isValidCaseNo r.caseNo = true) →
      (∀ r ∈ (rows.foldl
          (fun acc row =>
            if !isValidCaseNo (rowCaseNo row) then (acc.1, acc.2 + 1)
            else (acc.1 ++ [rowToRecord row], acc.2)) (acc, k)).1,
        isValidCaseNo r.caseNo = true) ∧
      (rows.foldl
          (fun acc row =>
            if !isValidCaseNo (rowCaseNo row) then (acc.1, acc.2 + 1)
            else (acc.1 ++ [rowToRecord row], acc.2)) (acc, k)).2 =
        k + (rows.filter (fun row => !isValidCaseNo (rowCaseNo row))).length ∧
      (rows.foldl
          (fun acc row =>
            if !isValidCaseNo (rowCaseNo row) then (acc.1, acc.2 + 1)
            else (acc.1 ++ [rowToRecord row], acc.2)) (acc, k)).1.length +
        (rows.foldl
          (fun acc row =>
            if !isValidCaseNo (rowCaseNo row) then (acc.1, acc.2 + 1)
            else (acc.1 ++ [rowToRecord row], acc.2)) (acc, k)).2 =
        acc.length + k + rows.length := by
  induction rows with
  | nil =>
    intro acc k hacc
    exact ⟨hacc, by simp, by simp⟩
  | cons row t ih =>
    intro acc k hacc
    by_cases hv : isValidCaseNo (rowCaseNo row) = true
    · have hstep : (if !isValidCaseNo (rowCaseNo row) then (acc, k + 1)
          else (acc ++ [rowToRecord row], k)) = (acc ++ [rowToRecord row], k) := by
        rw [hv]
        rfl
      have hacc2 : ∀ r ∈ acc ++ [rowToRecord row], isValidCaseNo r.caseNo = true := by
        intro r hr
        rcases List.mem_append.mp hr with h1 | h2
        · exact hacc r h1
        · rw [List.mem_singleton] at h2
          subst h2
          have : (rowToRecord row).caseNo = rowCaseNo row := by
            dsimp only [rowToRecord]
          rw [this]
          exact hv
      obtain ⟨g1, g2, g3⟩ := ih (acc ++ [rowToRecord row]) k hacc2
      rw [List.foldl_cons, hstep]
      refine ⟨g1, ?_, ?_⟩
      · rw [g2, List.filter_cons]
        simp [hv]
      · simp only [List.length_append, List.length_cons, List.length_nil] at g3 ⊢
        omega
    · have hv2 : isValidCaseNo (rowCaseNo row) = false := by
        cases hb : isValidCaseNo (rowCaseNo row) with
        | true => exact absurd hb hv
        | false => rfl
      have hstep : (if !isValidCaseNo (rowCaseNo row) then (acc, k + 1)
          else (acc ++ [rowToRecord row], k)) = (acc, k + 1) := by
        rw [hv2]
        rfl
      obtain ⟨g1, g2, g3⟩ := ih acc (k + 1) hacc
      rw [List.foldl_cons, hstep]
      refine ⟨g1, ?_, ?_⟩
      · rw [g2, List.filter_cons]
        simp only [hv2, Bool.not_false, if_pos]
        simp only [List.length_cons]
        omega
      · simp only [List.length_cons] at g3 ⊢
        omega

/-- C3 amended: the validator accepts exactly the ids of shape: the literal C,
one uppercase letter, two digits, a hyphen and a non-empty digit suffix (the
spec's "two letters" is too wide — the first must be C); and the CSV row loop
drops and counts every row whose case number fails the validator, so only
validated records enter the pipeline. -/
theorem C3_validator_shape_and_filter (s : String) (rows : List CsvRow) :
    (isValidCaseNo s = true ↔
      ∃ b c d rest, s.data = 'C' :: b :: c :: d :: '-' :: rest ∧
        b.isUpper = true ∧ c.isDigit = true ∧ d.isDigit = true ∧
        rest ≠ [] ∧ ∀ x ∈ rest, x.isDigit = true) ∧
    (∀ r ∈ (parseRows rows).1, isValidCaseNo r.caseNo = true) ∧
    (parseRows rows).2 =
      (rows.filter (fun row => !isValidCaseNo (rowCaseNo row))).length ∧
    (parseRows rows).1.length + (parseRows rows).2 = rows.length := by
  have hfold := parseRows_fold_spec rows [] 0 (by intro r hr; cases hr)
  refine ⟨?_, ?_, ?_, ?_⟩
  case refine_2 =>
    unfold parseRows
    exact hfold.1
  case refine_3 =>
    unfold parseRows
    rw [hfold.2.1]
    omega
  case refine_4 =>
    unfold parseRows
    have h3 := hfold.2.2
    simp only [List.length_nil] at h3
    omega
  case refine_1 => ?_
  unfold isValidCaseNo
  cases hdata : s.data with
  | nil =>
    simp
  | cons a t1 =>
    cases t1 with
    | nil => simp
    | cons b t2 =>
      cases t2 with
      | nil => simp
      | cons c t3 =>
        cases t3 with
        | nil => simp
        | cons d t4 =>
          cases t4 with
          | nil => simp
          | cons e rest =>
            rw [validCaseNoChars]
            constructor
            · rintro ⟨ha, he, h2, h3, h4, h6, h7⟩
              subst ha
              subst he
              exact ⟨b, c, d, rest, rfl, h2, h3, h4, h6, h7⟩
            · rintro ⟨b2, c2, d2, rest2, heq, h2, h3, h4, h6, h7⟩
              injection heq with ha heq
              injection heq with hb heq
              injection heq with hc heq
              injection heq with hd heq
              injection heq with he hrest
              subst ha
              subst hb
              subst hc
              subst hd
              subst he
              subst hrest
              exact ⟨rfl, rfl, h2, h3, h4, h6, h7⟩

/-- C3 witness: a well-formed id is accepted, and a batch with one malformed
row parses to one record with one skip counted. -/
theorem C3_witness :
    isValidCaseNo "CE22-1639" = true ∧
    (parseRows [[("CASE_NO", "CE22-1639")], [("CASE_NO", "bogus")]]).2 = 1 := by
  have h := C3_validator_shape_and_filter "CE22-1639"
    [[("CASE_NO", "CE22-1639")], [("CASE_NO", "bogus")]]
  refine ⟨h.1.mpr ⟨'E', '2', '2', ['1', '6', '3', '9'], rfl,
    by decide, by decide, by decide, by decide, by decide⟩, ?_⟩
  rw [h.2.2.1]
  decide

/-- C2: for a matched ticket, the payload holds exactly the fields whose
null-normalized remote value differs from the null-normalized desired value —
except that an absent or empty desired opened date is never written even when
it differs, while a differing closed date is written even when the desired
value is null; and when no normalized field differs, no payload is built, the
per-case step reports the case as already up to date and issues no remote
write call. -/
theorem C2_reconciler_minimal_payload (env : SyncEnv) (avail a : Bool)
    (change : CaseStateChange) (calls : List RemoteCall)
    (t : TicketWithCustomFields)
    (he : env.caseUpdatesEnabled = true)
    (hres : resolveTicket env avail change = (a, calls, .ok (some t))) :
    (∀ p, reconcileFields t change.record.caseOpened change.record.caseClosed = some p →
      p.cc_case_opened =
        (if jsOrNull t.cc_case_opened ≠ jsOrNull change.record.caseOpened ∧
            (jsOrNull change.record.caseOpened).isSome then
          jsOrNull change.record.caseOpened else none) ∧
      p.case_close_date =
        (if jsOrNull t.case_close_date ≠ jsOrNull change.record.caseClosed then
          some (jsOrNull change.record.caseClosed) else none) ∧
      p.last_case_status =
        (if jsOrNull t.last_case_status ≠
            some (determineCaseStatus change.record.caseOpened change.record.caseClosed) then
          some (determineCaseStatus change.record.caseOpened change.record.caseClosed)
         else none)) ∧
    (reconcileFields t change.record.caseOpened change.record.caseClosed = none ↔
      (jsOrNull t.cc_case_opened = jsOrNull change.record.caseOpened ∧
       jsOrNull t.case_close_date = jsOrNull change.record.caseClosed ∧
       jsOrNull t.last_case_status =
         some (determineCaseStatus change.record.caseOpened change.record.caseClosed))) ∧
    (reconcileFields t change.record.caseOpened change.record.caseClosed = none →
      processChange env avail change = (a, calls, .noChanges t.id) ∧
      ∀ call ∈ calls, isUpdateCall call = false) := by
  refine ⟨?_, ?_, ?_⟩
  · intro p hp
    rw [reconcileFields_eq] at hp
    by_cases hcond : jsOrNull t.cc_case_opened = jsOrNull change.record.caseOpened ∧
        jsOrNull t.case_close_date = jsOrNull change.record.caseClosed ∧
        jsOrNull t.last_case_status =
          some (determineCaseStatus change.record.caseOpened change.record.caseClosed)
    · rw [if_pos hcond] at hp
      cases hp
    · rw [if_neg hcond] at hp
      have hp2 := Option.some.inj hp
      subst hp2
      exact ⟨rfl, rfl, rfl⟩
  · rw [reconcileFields_eq]
    by_cases hcond : jsOrNull t.cc_case_opened = jsOrNull change.record.caseOpened ∧
        jsOrNull t.case_close_date = jsOrNull change.record.caseClosed ∧
        jsOrNull t.last_case_status =
          some (determineCaseStatus change.record.caseOpened change.record.caseClosed)
    · rw [if_pos hcond]
      simp [hcond]
    · rw [if_neg hcond]
      simp [hcond]
  · intro hnone
    refine ⟨processChange_noChanges env avail change a calls t he hres hnone, ?_⟩
    intro call hc
    have h2 := resolveTicket_calls_no_update env avail change
    rw [hres] at h2
    exact h2 call hc

/-- C2 witness: a ticket whose fields already equal the desired values yields
the already-up-to-date outcome with only the search call, no write. -/
theorem C2_witness :
    processChange envMatch true changeW =
      (true, [.search "CE24-0001"], .noChanges 42) := by
  have h := (C2_reconciler_minimal_payload envMatch true true changeW
    [.search "CE24-0001"] ticketMatch rfl rfl).2.2 rfl
  exact h.1

/-- Run a sequence of case-number searches, threading the process-wide flag
and recording each call trace and outcome. -/
def runFindSequence (env : SyncEnv) (avail : Bool) (caseNos : List String) :
    Bool × List (List RemoteCall × Except String (Option TicketWithCustomFields)) :=
  caseNos.foldl
    (fun acc c =>
      ((findTicketByCaseNumber env acc.1 c).1,
       acc.2 ++ [((findTicketByCaseNumber env acc.1 c).2.1,
                  (findTicketByCaseNumber env acc.1 c).2.2)]))
    (avail, [])

theorem runFindSequence_down (env : SyncEnv) (l : List String) :
    ∀ acc2, l.foldl
      (fun acc c =>
        ((findTicketByCaseNumber env acc.1 c).1,
         acc.2 ++ [((findTicketByCaseNumber env acc.1 c).2.1,
                    (findTicketByCaseNumber env acc.1 c).2.2)]))
      (false, acc2) =
      (false, acc2 ++ List.replicate l.length ([], Except.ok none)) := by
  induction l with
  | nil => intro acc2; simp
  | cons c t ih =>
    intro acc2
    rw [List.foldl_cons]
    show t.foldl _ (false, acc2 ++ [([], Except.ok none)]) = _
    rw [ih (acc2 ++ [([], Except.ok none)])]
    simp [List.replicate_succ]

/-- C7: a capability-unavailable (405) search error clears the process-wide
flag and yields null; once the flag is down, every subsequent search call
returns null immediately with no remote call and the flag never resets — also
across whole sync runs; any other search error propagates to the caller. -/
theorem C7_search_capability_latch (env : SyncEnv) (c msg : String) :
    (env.remote.search c = .error msg → includes405 msg = true →
      findTicketByCaseNumber env true c = (false, [.search c], .ok none)) ∧
    (∀ caseNos : List String,
      (runFindSequence env false caseNos).1 = false ∧
      ∀ entry ∈ (runFindSequence env false caseNos).2, entry = ([], .ok none)) ∧
    (env.remote.search c = .error msg → includes405 msg = false →
      findTicketByCaseNumber env true c = (true, [.search c], .error msg)) ∧
    (∀ (now : Nat) (db : CaseDb) (log : List SyncLogEntry)
        (records : List CodeEnforcementCaseRecord),
      (processCasesSync env now false db log records).searchApiAvailable = false) := by
  refine ⟨?_, ?_, ?_, ?_⟩
  · intro hs h405
    unfold findTicketByCaseNumber
    rw [if_neg (by simp), hs]
    show searchErrorFallback true c msg = _
    unfold searchErrorFallback
    rw [if_pos h405]
  · intro caseNos
    rw [runFindSequence, runFindSequence_down env caseNos []]
    refine ⟨rfl, ?_⟩
    intro entry hmem
    rw [List.nil_append] at hmem
    exact List.eq_of_mem_replicate hmem
  · intro hs h405
    unfold findTicketByCaseNumber
    rw [if_neg (by simp), hs]
    show searchErrorFallback true c msg = _
    unfold searchErrorFallback
    rw [if_neg (by rw [h405]; exact Bool.false_ne_true)]
  · intro now db log records
    exact processCasesSync_down_avail env now db log records

/-- C7 witness: a concrete 405 environment trips the latch and later searches
stay silent. -/
theorem C7_witness :
    findTicketByCaseNumber env405 true "CE24-0001" =
      (false, [.search "CE24-0001"], .ok none) ∧
    (runFindSequence env405 false ["CE24-0002", "CE24-0003"]).1 = false := by
  have h := C7_search_capability_latch env405 "CE24-0001"
    "Failed to search tickets: 405 Method Not Allowed"
  exact ⟨h.1 rfl (by decide), (h.2.1 ["CE24-0002", "CE24-0003"]).1⟩

theorem diffCases_mem (db : CaseDb) (records : List CodeEnforcementCaseRecord)
    (ch : CaseStateChange) (h : ch ∈ diffCases db records) :
    ch.record ∈ dedupeByCaseNo records ∧ ch.caseNo = ch.record.caseNo := by
  rw [diffCases, List.mem_filterMap] at h
  obtain ⟨a, ha, hfa⟩ := h
  simp only at hfa
  cases hfind : dbFind db a.caseNo with
  | none =>
    rw [hfind] at hfa
    have hfa2 := Option.some.inj hfa
    subst hfa2
    exact ⟨ha, rfl⟩
  | some row =>
    rw [hfind] at hfa
    have hfa2 : (if row.content_hash ≠ generateCaseHash a then
        some { caseNo := a.caseNo, record := a, previousHash := some row.content_hash,
               newHash := generateCaseHash a, isNew := false,
               previousOpened := row.case_opened, previousClosed := row.case_closed,
               previousStatus := some row.case_status,
               threefoldTicketId := row.threefold_ticket_id }
        else (none : Option CaseStateChange)) = some ch := hfa
    by_cases hne : row.content_hash ≠ generateCaseHash a
    · rw [if_pos hne] at hfa2
      have hfa3 := Option.some.inj hfa2
      subst hfa3
      exact ⟨ha, rfl⟩
    · rw [if_neg hne] at hfa2
      cases hfa2

theorem dbFind_upsertCaseState_fields (now : Nat) (db : CaseDb)
    (records : List CodeEnforcementCaseRecord) (c : String)
    (r : CodeEnforcementCaseRecord) (h : lastOccurrence c records = some r) :
    ∃ row, dbFind (upsertCaseState now db records) c = some row ∧
      row.case_opened = r.caseOpened ∧ row.case_closed = r.caseClosed ∧
      row.case_status = determineCaseStatus r.caseOpened r.caseClosed ∧
      row.case_type = r.caseType ∧ row.case_subtype = r.caseSubType ∧
      row.site_address = r.siteAddress ∧ row.raw_data = r.rawData ∧
      row.content_hash = generateCaseHash r ∧ row.last_seen_at = now := by
  rw [dbFind_upsertCaseState, h]
  cases hd : dbFind db c with
  | some old =>
    obtain ⟨f1, f2, f3, f4, f5, f6, f7⟩ := applyUpdate_record_fields now r old
    exact ⟨applyUpdate now r old, rfl, f1, f2, f3, f4, f5, f6, f7,
      applyUpdate_content_hash now r old, applyUpdate_last_seen_at now r old⟩
  | none =>
    obtain ⟨f1, f2, f3, f4, f5, f6, f7⟩ := mkNewRow_record_fields now r
    exact ⟨mkNewRow now r, rfl, f1, f2, f3, f4, f5, f6, f7,
      mkNewRow_content_hash now r, mkNewRow_last_seen_at now r⟩

/-- C4: duplicates of a caseId inside one batch collapse to the last
occurrence before diffing and before persisting: every change the detector
emits for the id carries the batch's last occurrence, and after the bulk
upsert the table holds exactly one row for the id, reflecting that last
occurrence's dates and fingerprint. -/
theorem C4_dedup_last_wins (now : Nat) (db : CaseDb)
    (records : List CodeEnforcementCaseRecord) (c : String)
    (hnd : (db.map Prod.fst).Nodup) (hc : c ∈ records.map (fun r => r.caseNo)) :
    (∀ ch ∈ diffCases db records, ch.caseNo = c →
      lastOccurrence c records = some ch.record) ∧
    ∃ r row, lastOccurrence c records = some r ∧
      dbFind (upsertCaseState now db records) c = some row ∧
      ((upsertCaseState now db records).map Prod.fst).count c = 1 ∧
      row.case_opened = r.caseOpened ∧ row.case_closed = r.caseClosed ∧
      row.content_hash = generateCaseHash r ∧ row.last_seen_at = now := by
  constructor
  · intro ch hch hcc
    obtain ⟨hmem, hkey⟩ := diffCases_mem db records ch hch
    have hlast := lastOccurrence_of_mem_dedupe records ch.record hmem
    rw [← hcc, hkey]
    exact hlast
  · rw [List.mem_map] at hc
    obtain ⟨r0, hr0, hr0c⟩ := hc
    obtain ⟨r, hr⟩ := lastOccurrence_isSome_of_mem records r0 hr0
    rw [hr0c] at hr
    obtain ⟨row, hfind, f1, f2, _, _, _, _, _, fh, fs⟩ :=
      dbFind_upsertCaseState_fields now db records c r hr
    refine ⟨r, row, hr, hfind, ?_, f1, f2, fh, fs⟩
    exact count_keys_eq_one _ c row (nodup_keys_upsertCaseState now db records hnd) hfind

/-- C4 witness: a batch holding the same case twice ends with one row carrying
the later occurrence's closed date. -/
theorem C4_witness :
    (dbFind (upsertCaseState 1 [] [recW, recW3]) "CE24-0001").map
      (fun row => row.case_closed) = some (some "2025-02-01") ∧
    ((upsertCaseState 1 [] [recW, recW3]).map Prod.fst).count "CE24-0001" = 1 := by
  obtain ⟨r, row, hlast, hfind, hcount, _, f2, _, _⟩ :=
    (C4_dedup_last_wins 1 [] [recW, recW3] "CE24-0001" (by simp) (by decide)).2
  have hr3 : r = recW3 := by
    have hconc : lastOccurrence "CE24-0001" [recW, recW3] = some recW3 := by decide
    rw [hconc] at hlast
    exact (Option.some.inj hlast).symm
  subst hr3
  rw [hfind]
  refine ⟨?_, hcount⟩
  show some row.case_closed = some (some "2025-02-01")
  rw [f2]
  rfl

/-- C10: for an already-stored caseId the bulk upsert overwrites the record
columns, the fingerprint and last_seen_at, but leaves the cached remote link
and created_at unchanged (and the whole row unchanged when the batch does not
mention the id); a row newly inserted by the bulk upsert carries a null remote
link. -/
theorem C10_upsert_frame (now : Nat) (db : CaseDb)
    (records : List CodeEnforcementCaseRecord) (c : String) :
    (∀ row, dbFind db c = some row →
      (∀ row2, dbFind (upsertCaseState now db records) c = some row2 →
        row2.threefold_ticket_id = row.threefold_ticket_id ∧
        row2.created_at = row.created_at) ∧
      (lastOccurrence c records = none →
        dbFind (upsertCaseState now db records) c = some row)) ∧
    (dbFind db c = none →
      ∀ row2, dbFind (upsertCaseState now db records) c = some row2 →
        row2.threefold_ticket_id = none) ∧
    (∀ r, lastOccurrence c records = some r →
      ∃ row2, dbFind (upsertCaseState now db records) c = some row2 ∧
        row2.case_opened = r.caseOpened ∧ row2.case_closed = r.caseClosed ∧
        row2.case_status = determineCaseStatus r.caseOpened r.caseClosed ∧
        row2.case_type = r.caseType ∧ row2.case_subtype = r.caseSubType ∧
        row2.site_address = r.siteAddress ∧ row2.raw_data = r.rawData ∧
        row2.content_hash = generateCaseHash r ∧ row2.last_seen_at = now) := by
  refine ⟨?_, ?_, dbFind_upsertCaseState_fields now db records c⟩
  · intro row hrow
    constructor
    · intro row2 h2
      rw [dbFind_upsertCaseState] at h2
      cases hlast : lastOccurrence c records with
      | none =>
        rw [hlast] at h2
        rw [hrow] at h2
        have := Option.some.inj h2
        subst this
        exact ⟨rfl, rfl⟩
      | some r =>
        rw [hlast, hrow] at h2
        have := Option.some.inj h2
        subst this
        exact ⟨applyUpdate_threefold now r row, applyUpdate_created_at now r row⟩
    · intro hlast
      rw [dbFind_upsertCaseState, hlast]
      exact hrow
  · intro hnone row2 h2
    rw [dbFind_upsertCaseState] at h2
    cases hlast : lastOccurrence c records with
    | none =>
      rw [hlast, hnone] at h2
      cases h2
    | some r =>
      rw [hlast, hnone] at h2
      have := Option.some.inj h2
      subst this
      exact mkNewRow_threefold now r

/-- C10 witness: refreshing a stored row keeps its cached link and creation
time while the batch record's dates replace the stored ones. -/
theorem C10_witness :
    (dbFind (upsertCaseState 5 [("CE24-0001", rowOld)] [recW3]) "CE24-0001").map
      (fun row2 => row2.threefold_ticket_id) = some (some 7) ∧
    (dbFind (upsertCaseState 5 [("CE24-0001", rowOld)] [recW3]) "CE24-0001").map
      (fun row2 => row2.created_at) = some 0 := by
  have hfind : dbFind (upsertCaseState 5 [("CE24-0001", rowOld)] [recW3]) "CE24-0001" =
      some (applyUpdate 5 recW3 rowOld) := by rfl
  obtain ⟨h1, h2⟩ := ((C10_upsert_frame 5 [("CE24-0001", rowOld)] [recW3]
    "CE24-0001").1 rowOld rfl).1 (applyUpdate 5 recW3 rowOld) hfind
  rw [hfind]
  constructor
  · show some (applyUpdate 5 recW3 rowOld).threefold_ticket_id = some (some 7)
    rw [h1]
    rfl
  · show some (applyUpdate 5 recW3 rowOld).created_at = some 0
    rw [h2]
    rfl

/-- C8: every sync run finalizes its SyncRun row — completed flag and totals —
on the zero-change, normal and fatal paths, recording the error message before
re-raising on the fatal path; and every non-fatal run persists the full
deduplicated batch, so last_seen_at advances to the run timestamp for every
record of the batch. -/
theorem C8_run_finalized_and_batch_persisted (env : SyncEnv) (now : Nat)
    (avail : Bool) (db : CaseDb) (log : List SyncLogEntry)
    (records : List CodeEnforcementCaseRecord) :
    (∃ entry,
      (processCasesSync env now avail db log records).log.get? log.length = some entry ∧
      entry.completed = true ∧ entry.total_records = records.length ∧
      ∀ msg, (processCasesSync env now avail db log records).result = .error msg →
        entry.error_message = some msg ∧ entry.errors = 1) ∧
    ((processCasesSync env now avail db log records).result = .ok () →
      ∀ r ∈ records, ∃ row,
        dbFind (processCasesSync env now avail db log records).db r.caseNo = some row ∧
        row.last_seen_at = now) := by
  refine ⟨processCasesSync_log env now avail db log records, ?_⟩
  intro hok r hmem
  obtain ⟨_, _, dbMid, hdb⟩ := processCasesSync_ok_shape env now avail db log records hok
  obtain ⟨r2, hr2⟩ := lastOccurrence_isSome_of_mem records r hmem
  rw [hdb]
  obtain ⟨row, hfind, _, hseen⟩ :=
    dbFind_upsertCaseState_hash now dbMid records r.caseNo r2 hr2
  exact ⟨row, hfind, hseen⟩

/-- C8 witness: a concrete dry run persists the record with the run timestamp. -/
theorem C8_witness :
    (dbFind (processCasesSync envDry 7 true [] [] [recW]).db recW.caseNo).map
      (fun row => row.last_seen_at) = some 7 := by
  obtain ⟨row, hfind, hseen⟩ :=
    (C8_run_finalized_and_batch_persisted envDry 7 true [] [] [recW]).2 rfl recW
      (List.mem_singleton.mpr rfl)
  rw [hfind]
  show some row.last_seen_at = some 7
  rw [hseen]

/-- C1: after a completed run, rerunning the engine on the identical batch
finds no changes (the stored fingerprint of every case equals the recomputed
hash), issues no remote calls at all, and leaves every stored fingerprint
unchanged. -/
theorem C1_idempotent_rerun (env : SyncEnv) (now1 now2 : Nat) (avail : Bool)
    (db : CaseDb) (log : List SyncLogEntry)
    (records : List CodeEnforcementCaseRecord)
    (h : (processCasesSync env now1 avail db log records).result = .ok ()) :
    diffCases (processCasesSync env now1 avail db log records).db records = [] ∧
    (processCasesSync env now2
      (processCasesSync env now1 avail db log records).searchApiAvailable
      (processCasesSync env now1 avail db log records).db
      (processCasesSync env now1 avail db log records).log records).calls = [] ∧
    ∀ c, (dbFind (processCasesSync env now2
        (processCasesSync env now1 avail db log records).searchApiAvailable
        (processCasesSync env now1 avail db log records).db
        (processCasesSync env now1 avail db log records).log records).db c).map
          (fun row => row.content_hash) =
      (dbFind (processCasesSync env now1 avail db log records).db c).map
          (fun row => row.content_hash) := by
  obtain ⟨hdiff0, _, dbMid, hdb⟩ :=
    processCasesSync_ok_shape env now1 avail db log records h
  have hnil : diffCases (processCasesSync env now1 avail db log records).db records = [] := by
    apply diffCases_eq_nil
    intro r hr
    have hlast := lastOccurrence_of_mem_dedupe records r hr
    rw [hdb]
    obtain ⟨row, hfind, hhash, _⟩ :=
      dbFind_upsertCaseState_hash now1 dbMid records r.caseNo r hlast
    exact ⟨row, hfind, hhash⟩
  have h2 := processCasesSync_no_changes env now2
    (processCasesSync env now1 avail db log records).searchApiAvailable
    (processCasesSync env now1 avail db log records).db
    (processCasesSync env now1 avail db log records).log records hdiff0 hnil
  refine ⟨hnil, h2.1, ?_⟩
  intro c
  rcases h2.2 with hsame | hup
  · rw [hsame]
  · rw [hup]
    cases hlast : lastOccurrence c records with
    | none =>
      rw [dbFind_upsertCaseState_untouched _ _ _ _ hlast]
    | some r =>
      obtain ⟨row2, hfind2, hhash2, _⟩ :=
        dbFind_upsertCaseState_hash now2 _ records c r hlast
      rw [hfind2, hdb]
      obtain ⟨row1, hfind1, hhash1, _⟩ :=
        dbFind_upsertCaseState_hash now1 dbMid records c r hlast
      rw [hfind1]
      simp [hhash1, hhash2]

/-- C1 witness: a concrete completed run followed by a rerun on the identical
batch issues zero remote calls. -/
theorem C1_witness :
    (processCasesSync envDry 2
      (processCasesSync envDry 1 true [] [] [recW]).searchApiAvailable
      (processCasesSync envDry 1 true [] [] [recW]).db
      (processCasesSync envDry 1 true [] [] [recW]).log [recW]).calls = [] :=
  (C1_idempotent_rerun envDry 1 2 true [] [] [recW] rfl).2.1
